import Mathlib

/-!
Shallow embedding of the ebo-planner-backend application core (Go) in Lean 4.

Source files embedded:
- internal/app/trips/service.go          (trip service, RSVP engine)
- internal/app/members/service.go        (member service)
- internal/adapters/memory/triprepo/repo.go
- internal/adapters/memory/memberrepo/repo.go
- internal/adapters/memory/rsvprepo (in-memory RSVP repo)
- internal/adapters/memory/idempotency (in-memory idempotency store)
- internal/adapters/httpapi/server.go    (idempotency protocol of the handlers)
- internal/domain (value types, NormalizeHumanName)

Modelling conventions:
- Go machine integers are Lean `Int` (no overflow is relevant at these sizes).
- `time.Time` instants are opaque ticks (`Nat`); the date-only StartDate/EndDate
  fields are a `Date` structure with lexicographic comparison, matching the
  date-only semantics the repository documents for those fields.
- Go maps keyed by ID are association lists; map iteration feeds into a
  deterministic sort in every code path a claim touches, so list order is
  irrelevant to observable results.
- Strings are Lean `String`; `strings.ToLower` / whitespace handling is modelled
  on the ASCII subset that `Char.toLower` / `Char.isWhitespace` cover.
- Stateful repository access is explicit state passing: a mutation takes the
  store and returns the (possibly unchanged) store next to its `Except` result.
-/

namespace Ebo

abbrev MemberID := String
abbrev TripID := String
abbrev SubjectID := String
abbrev Time := Nat

/-- Date-only value (triprepo.Trip.StartDate / EndDate). -/
structure Date where
  y : Nat
  m : Nat
  d : Nat
deriving DecidableEq, Repr

/-- `time.Time.Before` on date-only values: lexicographic on (y, m, d). -/
def Date.before (a b : Date) : Bool :=
  a.y < b.y ∨ (a.y = b.y ∧ (a.m < b.m ∨ (a.m = b.m ∧ a.d < b.d)))

def pad2 (n : Nat) : String :=
  if n < 10 then "0" ++ toString n else toString n

def pad4 (n : Nat) : String :=
  if n < 10 then "000" ++ toString n
  else if n < 100 then "00" ++ toString n
  else if n < 1000 then "0" ++ toString n
  else toString n

/-- Go `t.Format("2006-01-02")` on a date-only value. -/
def Date.format (d : Date) : String :=
  pad4 d.y ++ "-" ++ pad2 d.m ++ "-" ++ pad2 d.d

/-- triprepo.Status (a Go string); `invalid` stands for any other string,
keeping the `default` branches of the service switches. -/
inductive TripStatus
  | draft
  | published
  | canceled
  | invalid
deriving DecidableEq, Repr

/-- triprepo.DraftVisibility (a Go string); `unset` is the zero value "". -/
inductive DraftVis
  | priv
  | pub
  | unset
deriving DecidableEq, Repr

/-- rsvprepo.Status / domain.RSVPResponse (Go strings); `invalid` stands for
any string other than YES/NO/UNSET. -/
inductive RSVPStatus
  | yes
  | no
  | unset
  | invalid
deriving DecidableEq, Repr

inductive ArtifactType
  | gpx
  | schedule
  | document
  | other
deriving DecidableEq, Repr

/-- domain.Location. Latitude/longitude are informational floats in Go;
they are opaque `Int` ticks here (no claim touches their arithmetic). -/
structure Location where
  label : String
  address : Option String
  latitude : Option Int
  longitude : Option Int
deriving DecidableEq, Repr

structure TripArtifact where
  artifactID : String
  type : ArtifactType
  title : String
  url : String
deriving DecidableEq, Repr

/-- triprepo.Trip (persistence shape). -/
structure Trip where
  id : TripID
  status : TripStatus
  name : Option String
  description : Option String
  creatorMemberID : MemberID
  organizerMemberIDs : List MemberID
  draftVisibility : DraftVis
  startDate : Option Date
  endDate : Option Date
  capacityRigs : Option Int
  attendingRigs : Option Int
  difficultyText : Option String
  meetingLocation : Option Location
  commsRequirementsText : Option String
  recommendedRequirementsText : Option String
  artifacts : List TripArtifact
  createdAt : Time
  updatedAt : Time
deriving DecidableEq, Repr

/-- domain.VehicleProfile. -/
structure VehicleProfile where
  make : Option String := none
  model : Option String := none
  tireSize : Option String := none
  liftLockers : Option String := none
  fuelRange : Option String := none
  recoveryGear : Option String := none
  hamRadioCallSign : Option String := none
  notes : Option String := none
deriving DecidableEq, Repr

/-- memberrepo.Member. -/
structure Member where
  id : MemberID
  subject : SubjectID
  displayName : String
  email : String
  groupAliasEmail : Option String := none
  vehicleProfile : Option VehicleProfile := none
  isActive : Bool := true
  createdAt : Time := 0
  updatedAt : Time := 0
deriving DecidableEq, Repr

/-- rsvprepo.RSVP. -/
structure RSVP where
  tripID : TripID
  memberID : MemberID
  status : RSVPStatus
  updatedAt : Time
deriving DecidableEq, Repr

/-- domain.MyRSVP. -/
structure MyRSVP where
  tripID : TripID
  memberID : MemberID
  response : RSVPStatus
  updatedAt : Time
deriving DecidableEq, Repr

/-- domain.MemberSummary. -/
structure MemberSummary where
  id : MemberID
  displayName : String
  email : String
  groupAliasEmail : Option String
deriving DecidableEq, Repr

/-- domain.TripRSVPSummary. -/
structure TripRSVPSummary where
  capacityRigs : Option Int
  attendingRigs : Nat
  attendingMembers : List MemberSummary
  notAttendingMembers : List MemberSummary
deriving DecidableEq, Repr

/-- domain.TripSummary. -/
structure TripSummary where
  id : TripID
  name : Option String
  startDate : Option Date
  endDate : Option Date
  status : TripStatus
  draftVisibility : Option DraftVis
  capacityRigs : Option Int
  attendingRigs : Option Int
deriving DecidableEq, Repr

/-- domain.TripDetails. -/
structure TripDetails where
  summary : TripSummary
  description : Option String
  difficultyText : Option String
  meetingLocation : Option Location
  commsRequirementsText : Option String
  recommendedRequirementsText : Option String
  organizers : List MemberSummary
  artifacts : List TripArtifact
  rsvpSummary : Option TripRSVPSummary
  myRSVP : Option MyRSVP
  rsvpActionsEnabled : Bool
deriving DecidableEq, Repr

/-- A value in an Error.Details map (Go `map[string]any`): the services only
ever store strings, ints, or string lists there. -/
inductive DetailV
  | s (v : String)
  | i (v : Int)
  | l (v : List String)
deriving DecidableEq, Repr

/-- trips.Error / members.Error (the service error shape). -/
structure AppError where
  status : Nat
  code : String
  message : String
  details : List (String × DetailV) := []
deriving DecidableEq, Repr

/-- A service-call error: either a typed application error or an opaque
storage/internal error (a Go `error` the service passes through). -/
inductive Err
  | app (e : AppError)
  | store
deriving DecidableEq, Repr

instance {ε α : Type} [DecidableEq ε] [DecidableEq α] : DecidableEq (Except ε α) := fun a b =>
  match a, b with
  | .error e1, .error e2 =>
    if h : e1 = e2 then isTrue (by rw [h]) else isFalse (fun hc => h (by cases hc; rfl))
  | .error _, .ok _ => isFalse (fun hc => Except.noConfusion hc)
  | .ok _, .error _ => isFalse (fun hc => Except.noConfusion hc)
  | .ok v1, .ok v2 =>
    if h : v1 = v2 then isTrue (by rw [h]) else isFalse (fun hc => h (by cases hc; rfl))

/-- `r` is an application error with the given HTTP status and code token. -/
def errHas (r : Except Err α) (status : Nat) (code : String) : Prop :=
  ∃ e, r = .error (.app e) ∧ e.status = status ∧ e.code = code

/-! ### String helpers (domain normalization, Go strings package) -/

/-- Splitter behind `strings.Fields`: accumulate the current token (reversed)
while scanning; whitespace closes a token. Structural recursion on the input
so that concrete instances reduce inside the kernel. -/
def fieldsAux : List Char → List Char → List (List Char)
  | acc, [] => if acc = [] then [] else [acc.reverse]
  | acc, c :: cs =>
    if c.isWhitespace then
      if acc = [] then fieldsAux [] cs else acc.reverse :: fieldsAux [] cs
    else fieldsAux (c :: acc) cs

/-- Go `strings.Fields`: split around runs of whitespace. -/
def goFields (s : String) : List String :=
  (fieldsAux [] s.data).map (fun l => String.mk l)

/-- domain.NormalizeHumanName: trim and collapse internal whitespace runs. -/
def normalizeHumanName (s : String) : String :=
  String.intercalate " " (goFields s)

/-- Go `strings.ToLower` (ASCII subset). -/
def lowerStr (s : String) : String :=
  String.mk (s.data.map Char.toLower)

/-- Go `strings.TrimSpace` on the character list. -/
def trimChars (l : List Char) : List Char :=
  ((l.dropWhile Char.isWhitespace).reverse.dropWhile Char.isWhitespace).reverse

/-- Go `strings.TrimSpace`. -/
def goTrim (s : String) : String :=
  String.mk (trimChars s.data)

/-- Go `strings.Contains hay sub`. -/
def strContains (hay sub : String) : Bool :=
  decide (sub.data <:+: hay.data)

/-- Go `strings.EqualFold` (ASCII subset). -/
def equalFold (a b : String) : Bool :=
  lowerStr a = lowerStr b

/-- Go `strings.HasSuffix s suffix` (used to state trailing-prompt facts). -/
def endsWithStr (s suffix : String) : Bool :=
  decide (suffix.data <:+ s.data)

/-- `p != nil && strings.TrimSpace(*p) != ""` (helper `hasText` of
requiredPublishFieldsMissing). -/
def hasText : Option String → Bool
  | none => false
  | some s => goTrim s ≠ ""

/-- Go `strings.Join lines "\n"`. -/
def joinLines : List String → String
  | [] => ""
  | [x] => x
  | x :: y :: xs => x ++ "\n" ++ joinLines (y :: xs)

/-! ### Tri-state patch fields (trips.Optional / members.Optional) -/

/-- trips.Optional / members.Optional: unspecified, explicit null, or a value. -/
inductive Tri (α : Type)
  | unspec
  | nul
  | val (v : α)
deriving DecidableEq, Repr

def Tri.isSpecified : Tri α → Bool
  | .unspec => false
  | _ => true

def Tri.isNull : Tri α → Bool
  | .nul => true
  | _ => false

/-! ### Ordering helpers (sort.Slice comparators) -/

/-- Lexicographic ≤ on a pair of linearly ordered keys: the shape every
`sort.Slice` comparator in the repo has (primary key, then tie-break key). -/
def pairLE [LinearOrder β] [LinearOrder γ] (x y : β × γ) : Prop :=
  x.1 < y.1 ∨ (x.1 = y.1 ∧ x.2 ≤ y.2)

instance [LinearOrder β] [LinearOrder γ] : DecidableRel (pairLE (β := β) (γ := γ)) :=
  fun x y => by unfold pairLE; infer_instance

theorem pairLE_total [LinearOrder β] [LinearOrder γ] (x y : β × γ) :
    pairLE x y ∨ pairLE y x := by
  rcases lt_trichotomy x.1 y.1 with h | h | h
  · exact Or.inl (Or.inl h)
  · rcases le_total x.2 y.2 with h2 | h2
    · exact Or.inl (Or.inr ⟨h, h2⟩)
    · exact Or.inr (Or.inr ⟨h.symm, h2⟩)
  · exact Or.inr (Or.inl h)

theorem pairLE_trans [LinearOrder β] [LinearOrder γ] (x y z : β × γ) :
    pairLE x y → pairLE y z → pairLE x z := by
  rintro (h | ⟨h, h2⟩) (h' | ⟨h', h2'⟩)
  · exact Or.inl (h.trans h')
  · exact Or.inl (h'.symm ▸ h)
  · exact Or.inl (h ▸ h')
  · exact Or.inr ⟨h.trans h', h2.trans h2'⟩

/-- Key of the member comparator: (lower(displayName), memberID). -/
def memberKey (m : Member) : String × String :=
  (lowerStr m.displayName, m.id)

/-- memberrepo sortMembersByDisplayName comparator, as a total preorder. -/
def memberLE (a b : Member) : Prop :=
  pairLE (memberKey a) (memberKey b)

instance : DecidableRel memberLE := fun a b => by unfold memberLE; infer_instance

instance : IsTotal Member memberLE := ⟨fun _ _ => pairLE_total _ _⟩

instance : IsTrans Member memberLE := ⟨fun _ _ _ => pairLE_trans _ _ _⟩

/-- Key of the member-summary comparator (trips loadMemberSummariesSorted). -/
def memberSummaryKey (m : MemberSummary) : String × String :=
  (lowerStr m.displayName, m.id)

def memberSummaryLE (a b : MemberSummary) : Prop :=
  pairLE (memberSummaryKey a) (memberSummaryKey b)

instance : DecidableRel memberSummaryLE :=
  fun a b => by unfold memberSummaryLE; infer_instance

instance : IsTotal MemberSummary memberSummaryLE := ⟨fun _ _ => pairLE_total _ _⟩

instance : IsTrans MemberSummary memberSummaryLE := ⟨fun _ _ _ => pairLE_trans _ _ _⟩

/-- rsvprepo ListByTrip comparator key: (memberID, updatedAt). -/
def rsvpKey (r : RSVP) : String × Nat :=
  (r.memberID, r.updatedAt)

def rsvpLE (a b : RSVP) : Prop :=
  pairLE (rsvpKey a) (rsvpKey b)

instance : DecidableRel rsvpLE := fun a b => by unfold rsvpLE; infer_instance

instance : IsTotal RSVP rsvpLE := ⟨fun _ _ => pairLE_total _ _⟩

instance : IsTrans RSVP rsvpLE := ⟨fun _ _ _ => pairLE_trans _ _ _⟩

/-! ### In-memory repositories (adapters/memory) -/

/-- memory/triprepo GetByID. -/
def tripsGetByID (ts : List Trip) (id : TripID) : Option Trip :=
  ts.find? (fun t => t.id = id)

/-- memory/triprepo Save: overwrite the entry keyed by `t.id` (map write). -/
def tripsSave : List Trip → Trip → List Trip
  | [], t => [t]
  | u :: us, t => if u.id = t.id then t :: us else u :: tripsSave us t

/-- memory/triprepo Create: insert; `ErrAlreadyExists` when the id is taken. -/
def tripsCreate (ts : List Trip) (t : Trip) : Except Err (List Trip) :=
  if (tripsGetByID ts t.id).isSome then .error .store else .ok (ts ++ [t])

/-- memory/memberrepo GetByID. -/
def membersGetByID (ms : List Member) (id : MemberID) : Option Member :=
  ms.find? (fun m => m.id = id)

/-- memory/memberrepo GetBySubject. -/
def membersGetBySubject (ms : List Member) (subject : SubjectID) : Option Member :=
  ms.find? (fun m => m.subject = subject)

/-- memory/memberrepo Update: overwrite the entry keyed by `m.id`. -/
def membersUpdate : List Member → Member → List Member
  | [], m => [m]
  | u :: us, m => if u.id = m.id then m :: us else u :: membersUpdate us m

/-- memory/memberrepo List: filter inactive unless included, sorted by
(lower(displayName), memberID). -/
def membersList (ms : List Member) (includeInactive : Bool) : List Member :=
  List.insertionSort memberLE
    (ms.filter (fun m => includeInactive || m.isActive))

/-- memory/rsvprepo Get. -/
def rsvpGet (rs : List RSVP) (tripID : TripID) (memberID : MemberID) : Option RSVP :=
  rs.find? (fun r => r.tripID = tripID ∧ r.memberID = memberID)

/-- memory/rsvprepo Upsert: overwrite the entry keyed by (tripID, memberID). -/
def rsvpUpsert : List RSVP → RSVP → List RSVP
  | [], rec => [rec]
  | u :: us, rec =>
    if u.tripID = rec.tripID ∧ u.memberID = rec.memberID then rec :: us
    else u :: rsvpUpsert us rec

/-- memory/rsvprepo CountYesByTrip. -/
def countYesByTrip (rs : List RSVP) (tripID : TripID) : Nat :=
  (rs.filter (fun r => r.tripID = tripID ∧ r.status = .yes)).length

/-- memory/rsvprepo ListByTrip: the trip's records sorted by
(memberID, updatedAt). -/
def rsvpListByTrip (rs : List RSVP) (tripID : TripID) : List RSVP :=
  List.insertionSort rsvpLE (rs.filter (fun r => r.tripID = tripID))

/-- The application store: the three repositories the trip service touches. -/
structure St where
  trips : List Trip
  members : List Member
  rsvps : List RSVP
deriving DecidableEq, Repr

/-! ### Trip service: pure helpers (internal/app/trips/service.go) -/

def eTripNotFound : Err :=
  .app ⟨404, "TRIP_NOT_FOUND", "trip not found", []⟩

/-- trips.isTripVisibleToCaller. -/
def isTripVisibleToCaller (t : Trip) (caller : MemberID) : Bool :=
  match t.status with
  | .published | .canceled => true
  | .draft =>
    match t.draftVisibility with
    | .pub => t.organizerMemberIDs.contains caller
    | .priv => t.creatorMemberID = caller
    | .unset => false
  | .invalid => false

/-- trips.isOrganizer. -/
def isOrganizer (t : Trip) (caller : MemberID) : Bool :=
  t.organizerMemberIDs.contains caller

/-- trips.isDraftVisibleToCaller. -/
def isDraftVisibleToCaller (t : Trip) (caller : MemberID) : Bool :=
  if t.status ≠ .draft then false
  else
    match t.draftVisibility with
    | .pub => isOrganizer t caller
    | .priv => t.creatorMemberID = caller
    | .unset => false

/-- trips.isOrganizerIDInSlice. -/
def isOrganizerIDInSlice (ids : List MemberID) (target : MemberID) : Bool :=
  ids.contains target

/-- trips.toDomainSummary. AttendingRigs is surfaced only for published trips;
DraftVisibility only for drafts. -/
def toDomainSummary (t : Trip) : TripSummary :=
  { id := t.id
    name := t.name
    startDate := t.startDate
    endDate := t.endDate
    status := t.status
    draftVisibility := if t.status = .draft then some t.draftVisibility else none
    capacityRigs := t.capacityRigs
    attendingRigs := if t.status = .published then t.attendingRigs else none }

/-- trips.toDomainDetails (organizers/artifacts/RSVP fields filled by callers). -/
def toDomainDetails (t : Trip) : TripDetails :=
  { summary := toDomainSummary t
    description := t.description
    difficultyText := t.difficultyText
    meetingLocation := t.meetingLocation
    commsRequirementsText := t.commsRequirementsText
    recommendedRequirementsText := t.recommendedRequirementsText
    organizers := []
    artifacts := []
    rsvpSummary := none
    myRSVP := none
    rsvpActionsEnabled := false }

def memberSummaryOfMember (m : Member) : MemberSummary :=
  ⟨m.id, m.displayName, m.email, m.groupAliasEmail⟩

/-- trips.Service.loadOrganizerSummaries: resolve ids in order; a missing
member surfaces as the opaque repository error. -/
def loadOrganizerSummaries (ms : List Member) : List MemberID → Except Err (List MemberSummary)
  | [] => .ok []
  | id :: ids =>
    match membersGetByID ms id with
    | none => .error .store
    | some m => do
      let rest ← loadOrganizerSummaries ms ids
      .ok (memberSummaryOfMember m :: rest)

/-- trips.Service.loadMemberSummariesSorted: same accumulation loop as
loadOrganizerSummaries, then sort.Slice by (lower(displayName), memberID). -/
def loadMemberSummariesSorted (ms : List Member) (ids : List MemberID) :
    Except Err (List MemberSummary) := do
  let out ← loadOrganizerSummaries ms ids
  .ok (List.insertionSort memberSummaryLE out)

/-- trips.Service.tripRSVPSummaryForTrip. -/
def tripRSVPSummaryForTrip (st : St) (t : Trip) : Except Err TripRSVPSummary := do
  let recs := rsvpListByTrip st.rsvps t.id
  let yesIDs := (recs.filter (fun r => r.status = .yes)).map (fun r => r.memberID)
  let noIDs := (recs.filter (fun r => r.status = .no)).map (fun r => r.memberID)
  let yesMembers ← loadMemberSummariesSorted st.members yesIDs
  let noMembers ← loadMemberSummariesSorted st.members noIDs
  .ok { capacityRigs := t.capacityRigs
        attendingRigs := yesMembers.length
        attendingMembers := yesMembers
        notAttendingMembers := noMembers }

/-- trips.Service.myRSVPForTrip (the repository not-found error is `none`). -/
def myRSVPForTrip (rs : List RSVP) (t : Trip) (caller : MemberID) : Option MyRSVP :=
  (rsvpGet rs t.id caller).map (fun rec => ⟨t.id, caller, rec.status, rec.updatedAt⟩)

/-- trips.Service.tripDetailsForTrip (no caller context: myRsvp omitted). -/
def tripDetailsForTrip (st : St) (t : Trip) : Except Err TripDetails := do
  let orgs ← loadOrganizerSummaries st.members t.organizerMemberIDs
  let d := toDomainDetails t
  let d := { d with organizers := orgs
                    artifacts := t.artifacts
                    rsvpActionsEnabled := decide (t.status = TripStatus.published) }
  match t.status with
  | .published | .canceled => do
    let sum ← tripRSVPSummaryForTrip st t
    .ok { d with rsvpSummary := some sum, myRSVP := none }
  | _ => .ok { d with rsvpSummary := none, myRSVP := none }

/-- trips.requiredPublishFieldsMissing. -/
def requiredPublishFieldsMissing (t : Trip) : List String :=
  (if ¬ hasText t.name then ["name"] else []) ++
  (if ¬ hasText t.description then ["description"] else []) ++
  (if t.startDate = none then ["startDate"] else []) ++
  (if t.endDate = none then ["endDate"] else []) ++
  (if (match t.capacityRigs with | none => true | some v => v < 1) then ["capacityRigs"] else []) ++
  (if ¬ hasText t.difficultyText then ["difficultyText"] else []) ++
  (if (match t.meetingLocation with | none => true | some loc => goTrim loc.label = "")
    then ["meetingLocation"] else []) ++
  (if ¬ hasText t.commsRequirementsText then ["commsRequirementsText"] else []) ++
  (if ¬ hasText t.recommendedRequirementsText then ["recommendedRequirementsText"] else []) ++
  (if t.organizerMemberIDs.length = 0 then ["organizers"] else [])

/-- The trailing announcement prompt (the source string contains U+2019). -/
def rsvpPrompt : String := "RSVP in the app once you’re ready."

/-- trips.announcementCopyFromTrip. -/
def announcementCopyFromTrip (t : TripDetails) : String :=
  let name :=
    match t.summary.name with
    | some s => if goTrim s ≠ "" then goTrim s else "(untitled)"
    | none => "(untitled)"
  let dateLine :=
    match t.summary.startDate, t.summary.endDate with
    | some sd, some ed => "Dates: " ++ sd.format ++ " to " ++ ed.format
    | some sd, none => "Start: " ++ sd.format
    | none, _ => "Dates: TBD"
  let capLine :=
    match t.summary.capacityRigs with
    | some c => "Capacity: " ++ toString c ++ " rigs"
    | none => ""
  let locLine :=
    match t.meetingLocation with
    | some loc =>
      if goTrim loc.label ≠ "" then
        let base := "Meet: " ++ goTrim loc.label
        match loc.address with
        | some a => if goTrim a ≠ "" then base ++ " (" ++ goTrim a ++ ")" else base
        | none => base
      else ""
    | none => ""
  let desc :=
    match t.description with
    | some s => if goTrim s ≠ "" then goTrim s else ""
    | none => ""
  let lines :=
    ["Trip: " ++ name, dateLine] ++
    (if capLine ≠ "" then [capLine] else []) ++
    (if locLine ≠ "" then [locLine] else []) ++
    (if desc ≠ "" then ["", desc] else []) ++
    ["", rsvpPrompt]
  joinLines lines

/-- trips.LocationPatch. -/
structure LocationPatch where
  label : Tri String := .unspec
  address : Tri String := .unspec
  latitude : Tri Int := .unspec
  longitude : Tri Int := .unspec
  clearCoordinates : Bool := false
deriving DecidableEq, Repr

/-- trips.applyLocationPatch (a null label leaves the label unchanged). -/
def applyLocationPatch (existing : Option Location) (patch : Option LocationPatch) :
    Location :=
  let out := existing.getD ⟨"", none, none, none⟩
  match patch with
  | none => out
  | some p =>
    let out := match p.label with
      | .val v => { out with label := v }
      | _ => out
    let out := match p.address with
      | .unspec => out
      | .nul => { out with address := none }
      | .val v => { out with address := some v }
    let out := if p.clearCoordinates then { out with latitude := none, longitude := none } else out
    let out := match p.latitude with
      | .unspec => out
      | .nul => { out with latitude := none }
      | .val v => { out with latitude := some v }
    let out := match p.longitude with
      | .unspec => out
      | .nul => { out with longitude := none }
      | .val v => { out with longitude := some v }
    out

/-- trips.reorderArtifactsByID: the caller-supplied id list selects existing
artifacts (the Go id map is last-wins, hence the reversed lookup); the first
unknown id yields the validation error. -/
def reorderArtifactsByID (existing : List TripArtifact) :
    List String → Except Err (List TripArtifact)
  | [] => .ok []
  | id :: ids =>
    match existing.reverse.find? (fun a => a.artifactID = id) with
    | none => .error (.app ⟨422, "VALIDATION_ERROR", "invalid artifactIds",
        [("artifactIds", .s ("unknown artifactId: " ++ id))]⟩)
    | some a => do
      let rest ← reorderArtifactsByID existing ids
      .ok (a :: rest)

/-! ### Trip service: operations (internal/app/trips/service.go)

Mutating operations return the result next to the (possibly updated) store;
error results that occur before the repository write leave the store equal
to the input store. -/

/-- trips.TripCreated. -/
structure TripCreated where
  id : TripID
  status : TripStatus
  draftVisibility : DraftVis
deriving DecidableEq, Repr

/-- trips.Service.GetTripDetails (the caller-aware read; myRsvp populated). -/
def getTripDetails (st : St) (caller : MemberID) (tripID : TripID) :
    Except Err TripDetails :=
  match tripsGetByID st.trips tripID with
  | none => .error eTripNotFound
  | some t =>
    if ¬ isTripVisibleToCaller t caller then .error eTripNotFound
    else do
      let orgs ← loadOrganizerSummaries st.members t.organizerMemberIDs
      let d := toDomainDetails t
      let d := { d with organizers := orgs
                        artifacts := t.artifacts
                        rsvpActionsEnabled := decide (t.status = TripStatus.published) }
      match t.status with
      | .published | .canceled => do
        let sum ← tripRSVPSummaryForTrip st t
        .ok { d with rsvpSummary := some sum, myRSVP := myRSVPForTrip st.rsvps t caller }
      | _ => .ok { d with rsvpSummary := none, myRSVP := none }

/-- trips.Service.CreateTripDraft. `newID` stands for the generated TripID and
`now` for the request instant. -/
def createTripDraft (st : St) (caller : MemberID) (inName : String)
    (newID : TripID) (now : Time) : Except Err TripCreated × St :=
  match membersGetByID st.members caller with
  | none => (.error (.app ⟨422, "VALIDATION_ERROR", "invalid caller",
      [("memberId", .s "caller does not exist")]⟩), st)
  | some _ =>
    let name := normalizeHumanName inName
    if name = "" then
      (.error (.app ⟨422, "VALIDATION_ERROR", "invalid name",
        [("name", .s "must be non-empty")]⟩), st)
    else
      let t : Trip :=
        { id := newID
          status := .draft
          name := some name
          description := none
          creatorMemberID := caller
          organizerMemberIDs := [caller]
          draftVisibility := .priv
          startDate := none
          endDate := none
          capacityRigs := none
          attendingRigs := none
          difficultyText := none
          meetingLocation := none
          commsRequirementsText := none
          recommendedRequirementsText := none
          artifacts := []
          createdAt := now
          updatedAt := now }
      match tripsCreate st.trips t with
      | .error _ => (.error (.app ⟨409, "TRIP_ID_CONFLICT", "trip id conflict", []⟩), st)
      | .ok ts => (.ok ⟨newID, .draft, .priv⟩, { st with trips := ts })

/-- trips.UpdateTripInput (tri-state patch). MeetingLocation may be specified
with a nil pointer, hence the nested Option. -/
structure UpdateTripInput where
  name : Tri String := .unspec
  description : Tri String := .unspec
  startDate : Tri Date := .unspec
  endDate : Tri Date := .unspec
  capacityRigs : Tri Int := .unspec
  difficultyText : Tri String := .unspec
  meetingLocation : Tri (Option LocationPatch) := .unspec
  commsRequirementsText : Tri String := .unspec
  recommendedRequirementsText : Tri String := .unspec
  artifactIDs : Tri (List String) := .unspec
deriving DecidableEq, Repr

/-- The applyNullableString closure of Service.UpdateTrip. -/
def applyNullableString (dst : Option String) (o : Tri String) : Option String :=
  match o with
  | .unspec => dst
  | .nul => none
  | .val v => some v

/-- The name step of Service.UpdateTrip: optional, cannot be null, normalized,
must stay non-empty. -/
def applyPatchName (t : Trip) (o : Tri String) : Except Err Trip :=
  match o with
  | .unspec => .ok t
  | .nul => .error (.app ⟨422, "VALIDATION_ERROR", "invalid name",
      [("name", .s "cannot be null")]⟩)
  | .val v =>
    let name := normalizeHumanName v
    if name = "" then
      .error (.app ⟨422, "VALIDATION_ERROR", "invalid name",
        [("name", .s "must be non-empty")]⟩)
    else .ok { t with name := some name }

/-- The nullable text fields and the two dates of Service.UpdateTrip, in
source order (none of these can fail). -/
def applyPatchTexts (t0 : Trip) (inp : UpdateTripInput) : Trip :=
  let t := { t0 with description := applyNullableString t0.description inp.description }
  let t := { t with difficultyText := applyNullableString t.difficultyText inp.difficultyText }
  let t := { t with commsRequirementsText :=
                      applyNullableString t.commsRequirementsText inp.commsRequirementsText }
  let t := { t with recommendedRequirementsText :=
                      applyNullableString t.recommendedRequirementsText inp.recommendedRequirementsText }
  let t := match inp.startDate with
    | .unspec => t
    | .nul => { t with startDate := none }
    | .val v => { t with startDate := some v }
  match inp.endDate with
  | .unspec => t
  | .nul => { t with endDate := none }
  | .val v => { t with endDate := some v }

/-- The capacityRigs step of Service.UpdateTrip: ≥ 1, and on a published trip
not below the cached attending counter. -/
def applyPatchCapacity (t : Trip) (o : Tri Int) : Except Err Trip :=
  match o with
  | .unspec => .ok t
  | .nul => .ok { t with capacityRigs := none }
  | .val v =>
    if v < 1 then
      .error (.app ⟨422, "VALIDATION_ERROR", "invalid capacityRigs",
        [("capacityRigs", .s "must be >= 1")]⟩)
    else
      let curAtt : Int := t.attendingRigs.getD 0
      if t.status = TripStatus.published ∧ v < curAtt then
        .error (.app ⟨409, "CAPACITY_BELOW_ATTENDANCE",
          "capacity cannot be reduced below current attendance",
          [("attendingRigs", .i curAtt)]⟩)
      else .ok { t with capacityRigs := some v }

/-- The meetingLocation step of Service.UpdateTrip. -/
def applyPatchLocation (t : Trip) (o : Tri (Option LocationPatch)) : Trip :=
  match o with
  | .unspec => t
  | .nul => { t with meetingLocation := none }
  | .val patch => { t with meetingLocation := some (applyLocationPatch t.meetingLocation patch) }

/-- The artifactIds step of Service.UpdateTrip. -/
def applyPatchArtifacts (t : Trip) (o : Tri (List String)) : Except Err Trip :=
  match o with
  | .unspec => .ok t
  | .nul => .ok { t with artifacts := [] }
  | .val ids => do
    let reordered ← reorderArtifactsByID t.artifacts ids
    .ok { t with artifacts := reordered }

/-- Field application of Service.UpdateTrip (between the authorization switch
and the date-sanity check), in source order. -/
def applyUpdatePatch (t0 : Trip) (inp : UpdateTripInput) : Except Err Trip := do
  let t1 ← applyPatchName t0 inp.name
  let t2 := applyPatchTexts t1 inp
  let t3 ← applyPatchCapacity t2 inp.capacityRigs
  let t4 := applyPatchLocation t3 inp.meetingLocation
  let t5 ← applyPatchArtifacts t4 inp.artifactIDs
  .ok t5

/-- Tail of Service.UpdateTrip after authorization: apply the patch, check the
date range, stamp UpdatedAt, save, and build details. -/
def updateTripApply (st : St) (t : Trip) (inp : UpdateTripInput) (now : Time) :
    Except Err TripDetails × St :=
  match applyUpdatePatch t inp with
  | .error e => (.error e, st)
  | .ok t1 =>
    if (match t1.startDate, t1.endDate with
        | some sd, some ed => ed.before sd
        | _, _ => false) then
      (.error (.app ⟨422, "VALIDATION_ERROR", "invalid date range",
        [("endDate", .s "must be on or after startDate")]⟩), st)
    else
      let t2 := { t1 with updatedAt := now }
      let st1 := { st with trips := tripsSave st.trips t2 }
      (tripDetailsForTrip st1 t2, st1)

/-- trips.Service.UpdateTrip. -/
def updateTrip (st : St) (caller : MemberID) (tripID : TripID)
    (inp : UpdateTripInput) (now : Time) : Except Err TripDetails × St :=
  match tripsGetByID st.trips tripID with
  | none => (.error eTripNotFound, st)
  | some t =>
    match t.status with
    | .draft =>
      if ¬ isDraftVisibleToCaller t caller then (.error eTripNotFound, st)
      else if t.draftVisibility = DraftVis.priv ∧ t.creatorMemberID ≠ caller then
        (.error eTripNotFound, st)
      else if t.draftVisibility = DraftVis.pub ∧ ¬ isOrganizer t caller then
        (.error eTripNotFound, st)
      else updateTripApply st t inp now
    | .published =>
      if ¬ isOrganizer t caller then (.error eTripNotFound, st)
      else updateTripApply st t inp now
    | .canceled =>
      (.error (.app ⟨409, "TRIP_CANCELED", "trip is canceled and cannot be modified", []⟩), st)
    | .invalid =>
      (.error (.app ⟨409, "TRIP_INVALID_STATUS", "invalid trip status", []⟩), st)

/-- trips.Service.SetTripDraftVisibility. -/
def setTripDraftVisibility (st : St) (caller : MemberID) (tripID : TripID)
    (dv : DraftVis) (now : Time) : Except Err TripDetails × St :=
  match tripsGetByID st.trips tripID with
  | none => (.error eTripNotFound, st)
  | some t =>
    if ¬ isTripVisibleToCaller t caller then (.error eTripNotFound, st)
    else if t.status ≠ TripStatus.draft then
      (.error (.app ⟨409, "TRIP_NOT_DRAFT", "trip is not a draft", []⟩), st)
    else if t.creatorMemberID ≠ caller then (.error eTripNotFound, st)
    else
      match dv with
      | .unset =>
        (.error (.app ⟨422, "VALIDATION_ERROR", "invalid draftVisibility",
          [("draftVisibility", .s "must be PRIVATE or PUBLIC")]⟩), st)
      | v =>
        let t1 := { t with draftVisibility := v, updatedAt := now }
        let st1 := { st with trips := tripsSave st.trips t1 }
        (tripDetailsForTrip st1 t1, st1)

/-- trips.Service.AddTripOrganizer. -/
def addTripOrganizer (st : St) (caller : MemberID) (tripID : TripID)
    (target : MemberID) (now : Time) : Except Err TripDetails × St :=
  match tripsGetByID st.trips tripID with
  | none => (.error eTripNotFound, st)
  | some t =>
    if ¬ isTripVisibleToCaller t caller then (.error eTripNotFound, st)
    else if ¬ isOrganizer t caller then (.error eTripNotFound, st)
    else
      match membersGetByID st.members target with
      | none => (.error (.app ⟨422, "VALIDATION_ERROR", "invalid memberId",
          [("memberId", .s "member not found")]⟩), st)
      | some _ =>
        if ¬ isOrganizerIDInSlice t.organizerMemberIDs target then
          let t1 := { t with organizerMemberIDs := t.organizerMemberIDs ++ [target]
                             updatedAt := now }
          let st1 := { st with trips := tripsSave st.trips t1 }
          (tripDetailsForTrip st1 t1, st1)
        else (tripDetailsForTrip st t, st)

/-- trips.Service.RemoveTripOrganizer. -/
def removeTripOrganizer (st : St) (caller : MemberID) (tripID : TripID)
    (target : MemberID) (now : Time) : Except Err TripDetails × St :=
  match tripsGetByID st.trips tripID with
  | none => (.error eTripNotFound, st)
  | some t =>
    if ¬ isTripVisibleToCaller t caller then (.error eTripNotFound, st)
    else if ¬ isOrganizer t caller then (.error eTripNotFound, st)
    else if ¬ isOrganizerIDInSlice t.organizerMemberIDs target then
      (tripDetailsForTrip st t, st)
    else if t.organizerMemberIDs.length = 1 then
      (.error (.app ⟨409, "LAST_ORGANIZER", "cannot remove the last organizer", []⟩), st)
    else
      let out := t.organizerMemberIDs.filter (fun id => id ≠ target)
      if out.length = 0 then
        (.error (.app ⟨409, "LAST_ORGANIZER", "cannot remove the last organizer", []⟩), st)
      else
        let t1 := { t with organizerMemberIDs := out, updatedAt := now }
        let st1 := { st with trips := tripsSave st.trips t1 }
        (tripDetailsForTrip st1 t1, st1)

/-- trips.Service.CancelTrip. -/
def cancelTrip (st : St) (caller : MemberID) (tripID : TripID) (now : Time) :
    Except Err TripDetails × St :=
  match tripsGetByID st.trips tripID with
  | none => (.error eTripNotFound, st)
  | some t =>
    if ¬ isTripVisibleToCaller t caller then (.error eTripNotFound, st)
    else if ¬ isOrganizer t caller then (.error eTripNotFound, st)
    else if t.status = TripStatus.canceled then (tripDetailsForTrip st t, st)
    else if t.status ≠ TripStatus.draft ∧ t.status ≠ TripStatus.published then
      (.error (.app ⟨409, "TRIP_INVALID_STATUS", "invalid trip status", []⟩), st)
    else
      let t1 := { t with status := .canceled, updatedAt := now }
      let st1 := { st with trips := tripsSave st.trips t1 }
      (tripDetailsForTrip st1 t1, st1)

/-- trips.Service.PublishTrip. -/
def publishTrip (st : St) (caller : MemberID) (tripID : TripID) (now : Time) :
    Except Err (TripDetails × String) × St :=
  match tripsGetByID st.trips tripID with
  | none => (.error eTripNotFound, st)
  | some t =>
    if ¬ isTripVisibleToCaller t caller then (.error eTripNotFound, st)
    else if ¬ isOrganizer t caller then (.error eTripNotFound, st)
    else
      match t.status with
      | .published =>
        (match tripDetailsForTrip st t with
         | .error e => (.error e, st)
         | .ok d => (.ok (d, announcementCopyFromTrip d), st))
      | .canceled =>
        (.error (.app ⟨409, "TRIP_CANCELED", "trip is canceled and cannot be published", []⟩), st)
      | .invalid =>
        (.error (.app ⟨409, "TRIP_INVALID_STATUS", "invalid trip status", []⟩), st)
      | .draft =>
        if t.draftVisibility ≠ DraftVis.pub then
          (.error (.app ⟨409, "TRIP_PRIVATE_DRAFT", "private drafts cannot be published", []⟩), st)
        else
          let missing := requiredPublishFieldsMissing t
          if missing.length > 0 then
            (.error (.app ⟨409, "TRIP_NOT_READY_TO_PUBLISH",
              "trip is missing required fields for publish",
              [("missing", .l missing)]⟩), st)
          else
            let t1 := { t with status := .published
                               attendingRigs := some (t.attendingRigs.getD 0)
                               updatedAt := now }
            let st1 := { st with trips := tripsSave st.trips t1 }
            (match tripDetailsForTrip st1 t1 with
             | .error e => (.error e, st1)
             | .ok d => (.ok (d, announcementCopyFromTrip d), st1))

/-- Steps 3-8 of the UC-11 algorithm inside Service.SetMyRSVP: recount, delta,
clamp, capacity check, save trip, upsert record. -/
def setMyRSVPWrite (st : St) (t : Trip) (caller : MemberID) (tripID : TripID)
    (target : RSVPStatus) (existing : Option RSVP) (now : Time) :
    Except Err MyRSVP × St :=
  let curAtt : Int := countYesByTrip st.rsvps tripID
  let delta : Int :=
    match existing with
    | some e =>
      if e.status = RSVPStatus.yes then
        (if target ≠ RSVPStatus.yes then -1 else 0)
      else (if target = RSVPStatus.yes then 1 else 0)
    | none => (if target = RSVPStatus.yes then 1 else 0)
  let newAtt := max 0 (curAtt + delta)
  if target = RSVPStatus.yes ∧ newAtt > (t.capacityRigs.getD 0) then
    (.error (.app ⟨409, "TRIP_AT_CAPACITY", "trip is at capacity", []⟩), st)
  else
    let t1 := { t with attendingRigs := some newAtt, updatedAt := now }
    let rec1 : RSVP := ⟨tripID, caller, target, now⟩
    let st1 := { st with trips := tripsSave st.trips t1
                         rsvps := rsvpUpsert st.rsvps rec1 }
    (.ok ⟨tripID, caller, target, now⟩, st1)

/-- trips.Service.SetMyRSVP. -/
def setMyRSVP (st : St) (caller : MemberID) (tripID : TripID)
    (response : RSVPStatus) (now : Time) : Except Err MyRSVP × St :=
  match tripsGetByID st.trips tripID with
  | none => (.error eTripNotFound, st)
  | some t =>
    if ¬ isTripVisibleToCaller t caller then (.error eTripNotFound, st)
    else if t.status ≠ TripStatus.published then
      (.error (.app ⟨409, "TRIP_NOT_PUBLISHED", "rsvp is only allowed for published trips", []⟩), st)
    else if (match t.capacityRigs with | none => true | some c => c < 1) then
      (.error (.app ⟨409, "TRIP_MISSING_CAPACITY",
        "published trip must have capacity to accept rsvps", []⟩), st)
    else
      match response with
      | .invalid =>
        (.error (.app ⟨422, "VALIDATION_ERROR", "invalid response",
          [("response", .s "must be YES, NO, or UNSET")]⟩), st)
      | target =>
        let existing := rsvpGet st.rsvps tripID caller
        match existing with
        | some e =>
          if e.status = target then
            (.ok ⟨tripID, caller, e.status, e.updatedAt⟩, st)
          else setMyRSVPWrite st t caller tripID target (some e) now
        | none => setMyRSVPWrite st t caller tripID target none now

/-- trips.Service.GetMyRSVPForTrip. -/
def getMyRSVPForTrip (st : St) (caller : MemberID) (tripID : TripID) :
    Except Err MyRSVP :=
  match tripsGetByID st.trips tripID with
  | none => .error eTripNotFound
  | some t =>
    if ¬ isTripVisibleToCaller t caller then .error eTripNotFound
    else if t.status = TripStatus.draft then
      .error (.app ⟨409, "RSVP_NOT_AVAILABLE", "rsvp is not available for draft trips", []⟩)
    else
      match rsvpGet st.rsvps tripID caller with
      | none => .error (.app ⟨404, "RSVP_NOT_FOUND", "rsvp not found", []⟩)
      | some rec => .ok ⟨tripID, caller, rec.status, rec.updatedAt⟩

/-- trips.Service.GetTripRSVPSummary. -/
def getTripRSVPSummary (st : St) (caller : MemberID) (tripID : TripID) :
    Except Err TripRSVPSummary :=
  match tripsGetByID st.trips tripID with
  | none => .error eTripNotFound
  | some t =>
    if ¬ isTripVisibleToCaller t caller then .error eTripNotFound
    else if t.status = TripStatus.draft then
      .error (.app ⟨409, "RSVP_NOT_AVAILABLE", "rsvp summary is not available for draft trips", []⟩)
    else tripRSVPSummaryForTrip st t

/-! ### Member service (internal/app/members/service.go) and member search
(internal/adapters/memory/memberrepo/repo.go) -/

def eMemberNotProvisioned : Err :=
  .app ⟨404, "MEMBER_NOT_PROVISIONED",
    "No member profile exists for the authenticated subject.", []⟩

/-- Split a character list at every occurrence of `sep` (Go strings.SplitN
semantics for a single-character separator). -/
def splitOnChar : List Char → Char → List (List Char)
  | [], _ => [[]]
  | c :: cs, sep =>
    match splitOnChar cs sep with
    | [] => [[c]]
    | r :: rs => if c = sep then [] :: r :: rs else (c :: r) :: rs

/-- Modelled from the spec: email validation. The service delegates to the Go
standard library (`net/mail.ParseAddress`, not part of this repository) and
additionally rejects a display-name form; per §4.1 it accepts an RFC-822 bare
address. This model accepts `local@domain` with nonempty parts free of
whitespace and address punctuation; claims only depend on validity being a
deterministic predicate of the trimmed email string. -/
def validateEmail (email : String) : Bool :=
  let okChar : Char → Bool := fun c =>
    ¬ c.isWhitespace ∧ c ≠ '<' ∧ c ≠ '>' ∧ c ≠ ',' ∧ c ≠ '"' ∧ c ≠ '@'
  match splitOnChar email.data '@' with
  | [loc, dom] => loc ≠ [] ∧ dom ≠ [] ∧ loc.all okChar ∧ dom.all okChar
  | _ => false

/-- members.Service.ensureEmailUnique: scan the full member list (inactive
included), skipping the excluded member id, for a case-insensitive collision. -/
def ensureEmailUnique (ms : List Member) (email : String) (excludeMemberID : String) :
    Option Err :=
  if ((membersList ms true).filter
        (fun m => ¬ (excludeMemberID ≠ "" ∧ m.id = excludeMemberID))).any
      (fun m => equalFold m.email email) then
    some (.app ⟨409, "EMAIL_ALREADY_IN_USE", "email address is already in use", []⟩)
  else none

/-- members.VehicleProfilePatch. -/
structure VehicleProfilePatch where
  make : Tri String := .unspec
  model : Tri String := .unspec
  tireSize : Tri String := .unspec
  liftLockers : Tri String := .unspec
  fuelRange : Tri String := .unspec
  recoveryGear : Tri String := .unspec
  hamRadioCallSign : Tri String := .unspec
  notes : Tri String := .unspec
deriving DecidableEq, Repr

/-- members.applyVehicleProfilePatch (the applyField closure has the same
semantics as applyNullableString). -/
def applyVehicleProfilePatch (existing : Option VehicleProfile)
    (patch : VehicleProfilePatch) : VehicleProfile :=
  let out := existing.getD {}
  { out with
    make := applyNullableString out.make patch.make
    model := applyNullableString out.model patch.model
    tireSize := applyNullableString out.tireSize patch.tireSize
    liftLockers := applyNullableString out.liftLockers patch.liftLockers
    fuelRange := applyNullableString out.fuelRange patch.fuelRange
    recoveryGear := applyNullableString out.recoveryGear patch.recoveryGear
    hamRadioCallSign := applyNullableString out.hamRadioCallSign patch.hamRadioCallSign
    notes := applyNullableString out.notes patch.notes }

/-- members.UpdateMyMemberProfileInput. -/
structure UpdateMyMemberProfileInput where
  displayName : Tri String := .unspec
  email : Tri String := .unspec
  groupAliasEmail : Tri String := .unspec
  vehicleProfile : Tri VehicleProfilePatch := .unspec
deriving DecidableEq, Repr

/-- members.Service.UpdateMyMemberProfile. Returns the updated member next to
the member store (unchanged whenever an error is returned). -/
def updateMyMemberProfile (ms : List Member) (subject : SubjectID)
    (inp : UpdateMyMemberProfileInput) (now : Time) :
    Except Err Member × List Member :=
  match membersGetBySubject ms subject with
  | none => (.error eMemberNotProvisioned, ms)
  | some m0 =>
    let step1 : Except Err Member :=
      match inp.displayName with
      | .unspec => .ok m0
      | .nul => .error (.app ⟨422, "VALIDATION_ERROR", "invalid displayName",
          [("displayName", .s "cannot be null")]⟩)
      | .val v =>
        let dn := normalizeHumanName v
        if dn = "" then
          .error (.app ⟨422, "VALIDATION_ERROR", "invalid displayName",
            [("displayName", .s "must be non-empty")]⟩)
        else .ok { m0 with displayName := dn }
    match step1 with
    | .error e => (.error e, ms)
    | .ok m1 =>
      let step2 : Except Err Member :=
        match inp.email with
        | .unspec => .ok m1
        | .nul => .error (.app ⟨422, "VALIDATION_ERROR", "invalid email",
            [("email", .s "cannot be null")]⟩)
        | .val v =>
          let email := goTrim v
          if ¬ validateEmail email then
            .error (.app ⟨422, "VALIDATION_ERROR", "invalid email",
              [("email", .s "invalid")]⟩)
          else
            match ensureEmailUnique ms email m0.id with
            | some e => .error e
            | none => .ok { m1 with email := email }
      match step2 with
      | .error e => (.error e, ms)
      | .ok m2 =>
        let step3 : Except Err Member :=
          match inp.groupAliasEmail with
          | .unspec => .ok m2
          | .nul => .ok { m2 with groupAliasEmail := none }
          | .val v =>
            let gae := goTrim v
            if ¬ validateEmail gae then
              .error (.app ⟨422, "VALIDATION_ERROR", "invalid groupAliasEmail",
                [("groupAliasEmail", .s "invalid")]⟩)
            else .ok { m2 with groupAliasEmail := some gae }
        match step3 with
        | .error e => (.error e, ms)
        | .ok m3 =>
          let m4 :=
            match inp.vehicleProfile with
            | .unspec => m3
            | .nul => { m3 with vehicleProfile := none }
            | .val p => { m3 with vehicleProfile := some (applyVehicleProfilePatch m3.vehicleProfile p) }
          let m5 := { m4 with updatedAt := now }
          (.ok m5, membersUpdate ms m5)

/-- memberrepo tokenize: lowercase, trim, split on whitespace. -/
def tokenize (s : String) : List String :=
  let s1 := lowerStr (goTrim s)
  if s1 = "" then [] else goFields s1

/-- memberrepo matchesAllTokens. -/
def matchesAllTokens (displayName : String) (tokens : List String) : Bool :=
  tokens.all (fun t => strContains (lowerStr displayName) t)

/-- memberrepo SearchActiveByDisplayName: active members matching every token,
sorted by (lower(displayName), memberID), truncated to `limit` when positive. -/
def searchActiveByDisplayName (ms : List Member) (query : String) (limit : Nat) :
    List Member :=
  let qTokens := tokenize query
  if qTokens.length = 0 then []
  else
    let out := List.insertionSort memberLE
      (ms.filter (fun m => m.isActive ∧ matchesAllTokens m.displayName qTokens))
    if 0 < limit ∧ limit < out.length then out.take limit else out

/-- members.Service.SearchMembers. `searchLimit` is the service's SearchLimit
field (50 unless overridden). -/
def searchMembers (ms : List Member) (query : String) (searchLimit : Nat) :
    Except Err (List Member) :=
  let q := goTrim query
  if q.length < 3 then
    .error (.app ⟨422, "VALIDATION_ERROR", "invalid search query",
      [("q", .s "must be at least 3 characters")]⟩)
  else .ok (searchActiveByDisplayName ms q searchLimit)

/-- The service's default SearchLimit (members.NewService). -/
def defaultSearchLimit : Nat := 50

/-! ### Idempotency layer (internal/adapters/httpapi/server.go and
internal/adapters/memory/idempotency)

SHA-256 over the deterministic JSON serialization of the canonicalized body is
modelled as an injective readable encoding of the canonicalized body
(collision-free idealization), and a stored JSON response body is modelled by
the payload it decodes to: `json.Marshal` is deterministic, so byte equality
of stored bodies coincides with payload equality. -/

/-- idempotency.Fingerprint. -/
structure Fingerprint where
  key : String
  subject : SubjectID
  method : String
  route : String
  bodyHash : String
deriving DecidableEq, Repr

/-- The body bytes of an idempotency.Record: either the bodyHash marker the
handler writes under the metadata fingerprint, or a marshaled JSON response. -/
inductive RecBody
  | marker (h : String)
  | memberBody (m : Member)
  | tripBody (p : TripCreated)
deriving DecidableEq, Repr

/-- idempotency.Record. -/
structure IdemRecord where
  statusCode : Nat
  contentType : String
  body : RecBody
  createdAt : Time
deriving DecidableEq, Repr

abbrev IdemStore := List (Fingerprint × IdemRecord)

/-- memory idempotency Store.Get. -/
def idemGet (s : IdemStore) (fp : Fingerprint) : Option IdemRecord :=
  (s.find? (fun e => e.1 = fp)).map (fun e => e.2)

/-- memory idempotency Store.Put (overwrite-on-put). -/
def idemPut : IdemStore → Fingerprint → IdemRecord → IdemStore
  | [], fp, rec => [(fp, rec)]
  | e :: es, fp, rec =>
    if e.1 = fp then (fp, rec) :: es else e :: idemPut es fp rec

/-- Go `strings.HasPrefix rec.ContentType "application/json"`. -/
def strHasJSONContentType (ct : String) : Bool :=
  decide (("application/json" : String).data <+: ct.data)

/-- `string(meta.Body) != bodyHash`: a marker compares by its hash; a marshaled
JSON object never equals a 64-hex hash string byte-wise. -/
def metaBodyMismatch (b : RecBody) (h : String) : Bool :=
  match b with
  | .marker h0 => h0 ≠ h
  | _ => true

/-- oas.UpdateMyMemberProfileRequest (fields the handler reads and hashes). -/
structure UpdateProfileBody where
  displayName : Tri String := .unspec
  email : Option String := none
  groupAliasEmail : Tri String := .unspec
  vehicleProfile : Option VehicleProfilePatch := none
deriving DecidableEq, Repr

/-- The canonicalization step of httpapi.hashUpdateMyMemberProfileBody:
normalize a specified display name, trim the emails. (The email is trimmed but
NOT lowercased by the source.) -/
def canonicalizeUpdateProfileBody (b : UpdateProfileBody) : UpdateProfileBody :=
  { b with
    displayName :=
      match b.displayName with
      | .val v => .val (normalizeHumanName v)
      | o => o
    email := b.email.map goTrim
    groupAliasEmail :=
      match b.groupAliasEmail with
      | .val v => .val (goTrim v)
      | o => o }

def encodeTriStr : Tri String → String
  | .unspec => "u"
  | .nul => "n"
  | .val v => "v:" ++ v

def encodeOptStr : Option String → String
  | none => "-"
  | some v => "+" ++ v

def encodeVPP (p : VehicleProfilePatch) : String :=
  String.intercalate "|"
    [encodeTriStr p.make, encodeTriStr p.model, encodeTriStr p.tireSize,
     encodeTriStr p.liftLockers, encodeTriStr p.fuelRange, encodeTriStr p.recoveryGear,
     encodeTriStr p.hamRadioCallSign, encodeTriStr p.notes]

/-- httpapi.hashUpdateMyMemberProfileBody: the SHA-256 hex of the canonical
JSON form, modelled as an injective encoding of the canonicalized body. -/
def hashUpdateMyMemberProfileBody (b : UpdateProfileBody) : String :=
  let c := canonicalizeUpdateProfileBody b
  "update-profile;" ++ encodeTriStr c.displayName ++ ";" ++ encodeOptStr c.email ++
    ";" ++ encodeTriStr c.groupAliasEmail ++ ";" ++
    (match c.vehicleProfile with | none => "-" | some p => "+" ++ encodeVPP p)

/-- oas.CreateTripDraftRequest. -/
structure CreateTripBody where
  name : String
deriving DecidableEq, Repr

/-- httpapi.hashCreateTripDraftBody (same modelling as the profile hash). -/
def hashCreateTripDraftBody (b : CreateTripBody) : String :=
  "create-trip;" ++ normalizeHumanName b.name

/-- httpapi.updateMyMemberProfileInputFromOAS. -/
def updateMyMemberProfileInputFromOAS (b : UpdateProfileBody) :
    UpdateMyMemberProfileInput :=
  { displayName := b.displayName
    email := (match b.email with | some v => .val (goTrim v) | none => .unspec)
    groupAliasEmail :=
      (match b.groupAliasEmail with
       | .unspec => .unspec
       | .nul => .nul
       | .val v => .val (goTrim v))
    vehicleProfile := (match b.vehicleProfile with | some p => .val p | none => .unspec) }

/-- The body of an HTTP response at the boundary the claims observe: an error
envelope's code token, or the JSON payload of the success response. -/
inductive RespBody
  | errB (code : String)
  | memberB (m : Member)
  | tripB (p : TripCreated)
deriving DecidableEq, Repr

/-- (status code, response body). -/
abbrev HResp := Nat × RespBody

/-- The handler-visible store: application state plus the idempotency store. -/
structure HSt where
  st : St
  idem : IdemStore
deriving DecidableEq, Repr

/-- The execute-and-record tail of httpapi.Server.UpdateMyMemberProfile. -/
def updateProfileExec (h : HSt) (subject : SubjectID) (respFP : Fingerprint)
    (body : UpdateProfileBody) (now : Time) : HResp × HSt :=
  match updateMyMemberProfile h.st.members subject
          (updateMyMemberProfileInputFromOAS body) now with
  | (.error (.app e), _) => ((e.status, .errB e.code), h)
  | (.error .store, _) => ((500, .errB "INTERNAL_ERROR"), h)
  | (.ok m, ms1) =>
    let idem1 := idemPut h.idem respFP ⟨200, "application/json", .memberBody m, now⟩
    ((200, .memberB m), { st := { h.st with members := ms1 }, idem := idem1 })

/-- The respFP check of httpapi.Server.UpdateMyMemberProfile: replay a stored
200 JSON response that decodes; otherwise execute. -/
def updateProfileRespPhase (h : HSt) (subject : SubjectID) (idemKey : String)
    (bodyHash : String) (body : UpdateProfileBody) (now : Time) : HResp × HSt :=
  let respFP : Fingerprint := ⟨idemKey, subject, "PATCH", "/members/me", bodyHash⟩
  match idemGet h.idem respFP with
  | some rec =>
    if rec.statusCode = 200 ∧ strHasJSONContentType rec.contentType then
      match rec.body with
      | .memberBody m => ((200, .memberB m), h)
      | _ => updateProfileExec h subject respFP body now
    else updateProfileExec h subject respFP body now
  | none => updateProfileExec h subject respFP body now

/-- httpapi.Server.UpdateMyMemberProfile (request with subject, body and
Idempotency-Key present). -/
def updateMyMemberProfileHandler (h : HSt) (subject : SubjectID) (idemKey : String)
    (body : UpdateProfileBody) (now : Time) : HResp × HSt :=
  let bodyHash := hashUpdateMyMemberProfileBody body
  let metaFP : Fingerprint := ⟨idemKey, subject, "PATCH", "/members/me", ""⟩
  match idemGet h.idem metaFP with
  | some meta =>
    if metaBodyMismatch meta.body bodyHash then
      ((409, .errB "IDEMPOTENCY_KEY_REUSE"), h)
    else updateProfileRespPhase h subject idemKey bodyHash body now
  | none =>
    let idem1 := idemPut h.idem metaFP ⟨0, "text/plain", .marker bodyHash, now⟩
    updateProfileRespPhase { h with idem := idem1 } subject idemKey bodyHash body now

/-- The execute-and-record tail of httpapi.Server.CreateTripDraft. -/
def createTripExec (h : HSt) (callerID : MemberID) (respFP : Fingerprint)
    (body : CreateTripBody) (newID : TripID) (now : Time) : HResp × HSt :=
  match createTripDraft h.st callerID body.name newID now with
  | (.error (.app e), _) => ((e.status, .errB e.code), h)
  | (.error .store, _) => ((500, .errB "INTERNAL_ERROR"), h)
  | (.ok created, st1) =>
    let idem1 := idemPut h.idem respFP ⟨201, "application/json", .tripBody created, now⟩
    ((201, .tripB created), { st := st1, idem := idem1 })

/-- The respFP check of httpapi.Server.CreateTripDraft. -/
def createTripRespPhase (h : HSt) (callerID : MemberID) (subject : SubjectID)
    (idemKey : String) (bodyHash : String) (body : CreateTripBody)
    (newID : TripID) (now : Time) : HResp × HSt :=
  let respFP : Fingerprint := ⟨idemKey, subject, "POST", "/trips", bodyHash⟩
  match idemGet h.idem respFP with
  | some rec =>
    if rec.statusCode = 201 ∧ strHasJSONContentType rec.contentType then
      match rec.body with
      | .tripBody p => ((201, .tripB p), h)
      | _ => createTripExec h callerID respFP body newID now
    else createTripExec h callerID respFP body newID now
  | none => createTripExec h callerID respFP body newID now

/-- httpapi.Server.CreateTripDraft (request with subject, body and
Idempotency-Key present); the provisioning gate precedes the idempotency
protocol. -/
def createTripDraftHandler (h : HSt) (subject : SubjectID) (idemKey : String)
    (body : CreateTripBody) (newID : TripID) (now : Time) : HResp × HSt :=
  match membersGetBySubject h.st.members subject with
  | none => ((401, .errB "MEMBER_NOT_PROVISIONED"), h)
  | some me =>
    let bodyHash := hashCreateTripDraftBody body
    let metaFP : Fingerprint := ⟨idemKey, subject, "POST", "/trips", ""⟩
    match idemGet h.idem metaFP with
    | some meta =>
      if metaBodyMismatch meta.body bodyHash then
        ((409, .errB "IDEMPOTENCY_KEY_REUSE"), h)
      else createTripRespPhase h me.id subject idemKey bodyHash body newID now
    | none =>
      let idem1 := idemPut h.idem metaFP ⟨0, "text/plain", .marker bodyHash, now⟩
      createTripRespPhase { h with idem := idem1 } me.id subject idemKey bodyHash body newID now

/-! ### Spec-side definitions, used to compare code behaviour against the
spec's wording -/

/-- The §4.8 visibility rule, stated from the spec text: PUBLISHED or CANCELED
is visible to all; a PUBLIC draft to its organizers; a PRIVATE draft to its
creator. -/
def VisibleSpec (c : MemberID) (t : Trip) : Prop :=
  (t.status = .published ∨ t.status = .canceled) ∨
  (t.status = .draft ∧ t.draftVisibility = .pub ∧ c ∈ t.organizerMemberIDs) ∨
  (t.status = .draft ∧ t.draftVisibility = .priv ∧ c = t.creatorMemberID)

instance (c : MemberID) (t : Trip) : Decidable (VisibleSpec c t) := by
  unfold VisibleSpec; infer_instance

/-- The UC-11 delta as the spec words it: -1 when transitioning away from YES,
+1 when transitioning into YES, else 0. -/
def rsvpDelta (old : Option RSVPStatus) (new : RSVPStatus) : Int :=
  if old = some RSVPStatus.yes ∧ new ≠ RSVPStatus.yes then -1
  else if old ≠ some RSVPStatus.yes ∧ new = RSVPStatus.yes then 1
  else 0

/-- The required-to-publish fields of §3, as a predicate per field name
(stated from the spec text). -/
def publishFieldAbsent (t : Trip) : String → Prop
  | "name" => ¬ hasText t.name
  | "description" => ¬ hasText t.description
  | "startDate" => t.startDate = none
  | "endDate" => t.endDate = none
  | "capacityRigs" => (match t.capacityRigs with | none => True | some v => v < 1)
  | "difficultyText" => ¬ hasText t.difficultyText
  | "meetingLocation" =>
    (match t.meetingLocation with | none => True | some loc => goTrim loc.label = "")
  | "commsRequirementsText" => ¬ hasText t.commsRequirementsText
  | "recommendedRequirementsText" => ¬ hasText t.recommendedRequirementsText
  | "organizers" => t.organizerMemberIDs = []
  | _ => False

/-- Canonicalization as §4.5 words it: names via §4.1, emails lowercased AND
trimmed. (The code trims but does not lowercase; the two differ.) -/
def specCanonicalizeUpdateProfileBody (b : UpdateProfileBody) : UpdateProfileBody :=
  { b with
    displayName :=
      match b.displayName with
      | .val v => .val (normalizeHumanName v)
      | o => o
    email := b.email.map (fun e => lowerStr (goTrim e))
    groupAliasEmail :=
      match b.groupAliasEmail with
      | .val v => .val (lowerStr (goTrim v))
      | o => o }

/-- The trailing prompt as the spec quotes it, with an ASCII apostrophe
(codepoint 39); the source emits U+2019 instead. -/
def asciiPrompt : String :=
  "RSVP in the app once you" ++ String.mk [Char.ofNat 39] ++ "re ready."

/-- The published form a successful publish at `now` stores for a draft whose
AttendingRigs was unset (every reachable draft). -/
def publishedVersion (t : Trip) (now : Time) : Trip :=
  { t with status := .published, attendingRigs := some 0, updatedAt := now }

/-- The store after a successful publish of `t` at `now`. -/
def stAfterPublish (st : St) (t : Trip) (now : Time) : St :=
  { st with trips := tripsSave st.trips (publishedVersion t now) }

/-- The store after the write phase of SetMyRSVP: the trip saved with the new
attendance and the RSVP record upserted. -/
def stAfterRSVP (st : St) (t : Trip) (id : TripID) (caller : MemberID)
    (response : RSVPStatus) (now : Time) (newAtt : Int) : St :=
  { st with
    trips := tripsSave st.trips { t with attendingRigs := some newAtt, updatedAt := now }
    rsvps := rsvpUpsert st.rsvps ⟨id, caller, response, now⟩ }

/-- A trip-service mutation request (arguments of one use-case call). -/
inductive Op
  | createDraft (caller : MemberID) (name : String) (newID : TripID) (now : Time)
  | update (caller : MemberID) (id : TripID) (inp : UpdateTripInput) (now : Time)
  | setVis (caller : MemberID) (id : TripID) (dv : DraftVis) (now : Time)
  | addOrg (caller : MemberID) (id : TripID) (target : MemberID) (now : Time)
  | removeOrg (caller : MemberID) (id : TripID) (target : MemberID) (now : Time)
  | cancel (caller : MemberID) (id : TripID) (now : Time)
  | publish (caller : MemberID) (id : TripID) (now : Time)
  | setRSVP (caller : MemberID) (id : TripID) (response : RSVPStatus) (now : Time)

/-- The store after one trip-service mutation (reads change nothing). -/
def stepOp (st : St) : Op → St
  | .createDraft caller name newID now => (createTripDraft st caller name newID now).2
  | .update caller id inp now => (updateTrip st caller id inp now).2
  | .setVis caller id dv now => (setTripDraftVisibility st caller id dv now).2
  | .addOrg caller id target now => (addTripOrganizer st caller id target now).2
  | .removeOrg caller id target now => (removeTripOrganizer st caller id target now).2
  | .cancel caller id now => (cancelTrip st caller id now).2
  | .publish caller id now => (publishTrip st caller id now).2
  | .setRSVP caller id response now => (setMyRSVP st caller id response now).2

/-- The at-least-one-organizer invariant over the whole store. -/
def OrgInv (st : St) : Prop :=
  ∀ t ∈ st.trips, t.organizerMemberIDs ≠ []

instance (st : St) : Decidable (OrgInv st) := by unfold OrgInv; infer_instance

/-! ### Concrete fixtures for witnesses and counterexamples -/

def wAlice : Member := { id := "A", subject := "sa", displayName := "Alice", email := "alice@x.io" }

def wBob : Member := { id := "B", subject := "sb", displayName := "Bob", email := "bob@x.io" }

def wCarol : Member :=
  { id := "C", subject := "sc", displayName := "Carol", email := "carol@x.io", isActive := false }

/-- A PUBLIC draft with every required-to-publish field present. -/
def wTripFull : Trip :=
  { id := "T1", status := .draft, name := some "Snow Run", description := some "Fun trip"
    creatorMemberID := "A", organizerMemberIDs := ["A"], draftVisibility := .pub
    startDate := some ⟨2025, 3, 7⟩, endDate := some ⟨2025, 3, 9⟩
    capacityRigs := some 1, attendingRigs := none
    difficultyText := some "easy"
    meetingLocation := some ⟨"Trailhead", some "5 Rd", none, none⟩
    commsRequirementsText := some "GMRS", recommendedRequirementsText := some "33s"
    artifacts := [], createdAt := 0, updatedAt := 0 }

/-- The same trip as a PRIVATE draft whose organizer set also contains B. -/
def wTripPriv : Trip :=
  { wTripFull with draftVisibility := .priv, organizerMemberIDs := ["A", "B"] }

/-- The published form of wTripFull with one YES RSVP (capacity 1). -/
def wTripPub : Trip :=
  { wTripFull with status := .published, attendingRigs := some 1, updatedAt := 5 }

/-- wTripFull immediately after a successful publish at instant 5. -/
def wTripPub0 : Trip :=
  { wTripFull with status := .published, attendingRigs := some 0, updatedAt := 5 }

def wStDraft : St := ⟨[wTripFull], [wAlice, wBob], []⟩

/-- The store after publishing wTripFull at instant 5. -/
def wStAfterPublish : St :=
  { wStDraft with trips := tripsSave wStDraft.trips wTripPub0 }

/-- The details PublishTrip returns for wTripFull. -/
def wDetailsPub : TripDetails :=
  { summary :=
      { id := "T1", name := some "Snow Run", startDate := some ⟨2025, 3, 7⟩
        endDate := some ⟨2025, 3, 9⟩, status := .published, draftVisibility := none
        capacityRigs := some 1, attendingRigs := some 0 }
    description := some "Fun trip"
    difficultyText := some "easy"
    meetingLocation := some ⟨"Trailhead", some "5 Rd", none, none⟩
    commsRequirementsText := some "GMRS"
    recommendedRequirementsText := some "33s"
    organizers := [⟨"A", "Alice", "alice@x.io", none⟩]
    artifacts := []
    rsvpSummary := some ⟨some 1, 0, [], []⟩
    myRSVP := none
    rsvpActionsEnabled := true }

def wStPriv : St := ⟨[wTripPriv], [wAlice, wBob], []⟩

def wStPub : St := ⟨[wTripPub], [wAlice, wBob], [⟨"T1", "A", .yes, 5⟩]⟩

/-- A published trip with capacity 3 whose cached counter matches two YES
records. -/
def wTripPub2 : Trip := { wTripPub with capacityRigs := some 3, attendingRigs := some 2 }

def wStPub2 : St :=
  ⟨[wTripPub2], [wAlice, wBob], [⟨"T1", "A", .yes, 5⟩, ⟨"T1", "B", .yes, 6⟩]⟩

/-- A trip after the capacityRigs patch step of UpdateTrip. -/
def tCapSet (t : Trip) (v : Int) : Trip := { t with capacityRigs := some v }

/-- The same trip with UpdatedAt stamped, as UpdateTrip saves it. -/
def tCapUpd (t : Trip) (v : Int) (now : Time) : Trip :=
  { tCapSet t v with updatedAt := now }

/-- The store after UpdateTrip saves the capacity-patched trip. -/
def stCapUpd (st : St) (t : Trip) (v : Int) (now : Time) : St :=
  { st with trips := tripsSave st.trips (tCapUpd t v now) }

/-- The shape of every record the PATCH handler stores under a response
fingerprint: a 200 application/json member payload. -/
def wfRespRecordPATCH (rec : IdemRecord) : Prop :=
  rec.statusCode = 200 ∧ strHasJSONContentType rec.contentType = true ∧
  ∃ m : Member, rec.body = RecBody.memberBody m

/-- The shape of every record the POST handler stores under a response
fingerprint: a 201 application/json trip payload. -/
def wfRespRecordPOST (rec : IdemRecord) : Prop :=
  rec.statusCode = 201 ∧ strHasJSONContentType rec.contentType = true ∧
  ∃ p : TripCreated, rec.body = RecBody.tripBody p

/-- The store after a handler records the body-hash marker under the metadata
fingerprint. -/
def markHSt (h : HSt) (fp : Fingerprint) (bh : String) (now : Time) : HSt :=
  { h with idem := idemPut h.idem fp ⟨0, "text/plain", RecBody.marker bh, now⟩ }

def wIdemP : HSt :=
  ⟨wStDraft, [(⟨"k1", "sa", "PATCH", "/members/me", ""⟩,
    ⟨0, "text/plain", .marker "other", 1⟩)]⟩

def wPostRec : IdemRecord := ⟨201, "application/json", .tripBody ⟨"T1", .draft, .priv⟩, 2⟩

def wIdemQ : HSt :=
  ⟨wStDraft, [(⟨"k2", "sa", "POST", "/trips", hashCreateTripDraftBody ⟨"Snow Run"⟩⟩, wPostRec)]⟩

/-- The ten required-to-publish field names, in the order the source checks
them. -/
def publishRequiredFieldNames : List String :=
  ["name", "description", "startDate", "endDate", "capacityRigs", "difficultyText",
   "meetingLocation", "commsRequirementsText", "recommendedRequirementsText", "organizers"]

/-! ## Theorems -/

/-! ### Visibility (C3) -/

theorem visible_iff_spec (c : MemberID) (t : Trip) :
    isTripVisibleToCaller t c = true ↔ VisibleSpec c t := by
  unfold isTripVisibleToCaller VisibleSpec
  cases t.status <;> cases t.draftVisibility <;>
    simp [List.elem_iff, eq_comm]

theorem draftVisible_agrees (c : MemberID) (t : Trip) (h : t.status = .draft) :
    isDraftVisibleToCaller t c = isTripVisibleToCaller t c := by
  unfold isDraftVisibleToCaller isTripVisibleToCaller isOrganizer
  rw [h]
  simp

/-- C3: a trip is visible to a caller exactly when the §4.8 rule holds, and
every read or mutation of an existing trip (of a well-formed status) that is
invisible to the caller returns 404 TRIP_NOT_FOUND — never 403 — leaving the
store unchanged. -/
theorem trip_visibility_matches_spec_and_collapses_to_404 :
    (∀ (c : MemberID) (t : Trip), isTripVisibleToCaller t c = true ↔ VisibleSpec c t) ∧
    (∀ (st : St) (c : MemberID) (id : TripID) (t : Trip),
      tripsGetByID st.trips id = some t →
      ¬ VisibleSpec c t → t.status ≠ TripStatus.invalid →
      getTripDetails st c id = .error eTripNotFound ∧
      getMyRSVPForTrip st c id = .error eTripNotFound ∧
      getTripRSVPSummary st c id = .error eTripNotFound ∧
      (∀ inp now, updateTrip st c id inp now = (.error eTripNotFound, st)) ∧
      (∀ dv now, setTripDraftVisibility st c id dv now = (.error eTripNotFound, st)) ∧
      (∀ target now, addTripOrganizer st c id target now = (.error eTripNotFound, st)) ∧
      (∀ target now, removeTripOrganizer st c id target now = (.error eTripNotFound, st)) ∧
      (∀ now, cancelTrip st c id now = (.error eTripNotFound, st)) ∧
      (∀ now, publishTrip st c id now = (.error eTripNotFound, st)) ∧
      (∀ response now, setMyRSVP st c id response now = (.error eTripNotFound, st))) := by
  refine ⟨visible_iff_spec, ?_⟩
  intro st c id t hget hinv hok
  have hv : isTripVisibleToCaller t c = false := by
    rw [← Bool.not_eq_true, visible_iff_spec]; exact hinv
  refine ⟨?_, ?_, ?_, ?_, ?_, ?_, ?_, ?_, ?_, ?_⟩
  · unfold getTripDetails; rw [hget]; simp [hv]
  · unfold getMyRSVPForTrip; rw [hget]; simp [hv]
  · unfold getTripRSVPSummary; rw [hget]; simp [hv]
  · intro inp now
    unfold updateTrip
    rw [hget]
    cases hs : t.status with
    | draft =>
      have hd : isDraftVisibleToCaller t c = false := by
        rw [draftVisible_agrees c t hs]; exact hv
      simp [hs, hd]
    | published => exact absurd (Or.inl (Or.inl hs)) hinv
    | canceled => exact absurd (Or.inl (Or.inr hs)) hinv
    | invalid => exact absurd hs hok
  · intro dv now; unfold setTripDraftVisibility; rw [hget]; simp [hv]
  · intro target now; unfold addTripOrganizer; rw [hget]; simp [hv]
  · intro target now; unfold removeTripOrganizer; rw [hget]; simp [hv]
  · intro now; unfold cancelTrip; rw [hget]; simp [hv]
  · intro now; unfold publishTrip; rw [hget]; simp [hv]
  · intro response now; unfold setMyRSVP; rw [hget]; simp [hv]

/-- C3 witness: B is an organizer of the PRIVATE draft T1 but not its creator,
so the trip is invisible to B and both a read and a mutation yield 404. -/
theorem trip_visibility_collapse_witness :
    getTripDetails wStPriv "B" "T1" = .error eTripNotFound ∧
    setMyRSVP wStPriv "B" "T1" .yes 3 = (.error eTripNotFound, wStPriv) := by
  have h := (trip_visibility_matches_spec_and_collapses_to_404).2
    wStPriv "B" "T1" wTripPriv (by rfl) (by decide) (by decide)
  exact ⟨h.1, h.2.2.2.2.2.2.2.2.2 RSVPStatus.yes 3⟩

/-! ### Organizer-set invariant (C2) -/

theorem mem_tripsSave {ts : List Trip} {t u : Trip} (h : u ∈ tripsSave ts t) :
    u = t ∨ u ∈ ts := by
  induction ts with
  | nil => simp [tripsSave] at h; exact Or.inl h
  | cons v vs ih =>
    unfold tripsSave at h
    by_cases hid : v.id = t.id
    · rw [if_pos hid] at h
      rcases List.mem_cons.mp h with h1 | h1
      · exact Or.inl h1
      · exact Or.inr (List.mem_cons_of_mem _ h1)
    · rw [if_neg hid] at h
      rcases List.mem_cons.mp h with h1 | h1
      · exact Or.inr (h1 ▸ List.mem_cons_self _ _)
      · rcases ih h1 with h2 | h2
        · exact Or.inl h2
        · exact Or.inr (List.mem_cons_of_mem _ h2)

theorem tripsGetByID_tripsSave (ts : List Trip) (t : Trip) :
    tripsGetByID (tripsSave ts t) t.id = some t := by
  induction ts with
  | nil => simp [tripsSave, tripsGetByID]
  | cons v vs ih =>
    unfold tripsSave
    by_cases hid : v.id = t.id
    · rw [if_pos hid]; simp [tripsGetByID]
    · rw [if_neg hid]
      unfold tripsGetByID at ih ⊢
      simp [List.find?_cons, hid, ih]

theorem tripsCreate_ok {ts : List Trip} {t : Trip} {ts1 : List Trip}
    (h : tripsCreate ts t = .ok ts1) : ts1 = ts ++ [t] := by
  unfold tripsCreate at h
  split at h
  · cases h
  · cases h; rfl

theorem orgInv_save {st : St} {t1 : Trip} (h : OrgInv st)
    (ht : t1.organizerMemberIDs ≠ []) :
    ∀ u ∈ tripsSave st.trips t1, u.organizerMemberIDs ≠ [] := by
  intro u hu
  rcases mem_tripsSave hu with rfl | hu2
  · exact ht
  · exact h u hu2

theorem applyPatchName_organizers {t : Trip} {o : Tri String} {t' : Trip}
    (h : applyPatchName t o = .ok t') :
    t'.organizerMemberIDs = t.organizerMemberIDs := by
  cases o with
  | unspec => simp [applyPatchName] at h; subst h; rfl
  | nul => simp [applyPatchName] at h
  | val v =>
    simp [applyPatchName] at h
    split at h
    · cases h
    · cases h; rfl

theorem applyPatchTexts_organizers (t : Trip) (inp : UpdateTripInput) :
    (applyPatchTexts t inp).organizerMemberIDs = t.organizerMemberIDs := by
  unfold applyPatchTexts
  cases inp.startDate <;> cases inp.endDate <;> rfl

theorem applyPatchCapacity_organizers {t : Trip} {o : Tri Int} {t' : Trip}
    (h : applyPatchCapacity t o = .ok t') :
    t'.organizerMemberIDs = t.organizerMemberIDs := by
  cases o with
  | unspec => simp [applyPatchCapacity] at h; subst h; rfl
  | nul => simp [applyPatchCapacity] at h; subst h; rfl
  | val v =>
    simp [applyPatchCapacity] at h
    split at h
    · cases h
    · split at h
      · cases h
      · cases h; rfl

theorem applyPatchLocation_organizers (t : Trip) (o : Tri (Option LocationPatch)) :
    (applyPatchLocation t o).organizerMemberIDs = t.organizerMemberIDs := by
  cases o <;> rfl

theorem applyPatchArtifacts_organizers {t : Trip} {o : Tri (List String)} {t' : Trip}
    (h : applyPatchArtifacts t o = .ok t') :
    t'.organizerMemberIDs = t.organizerMemberIDs := by
  cases o with
  | unspec => simp [applyPatchArtifacts] at h; subst h; rfl
  | nul => simp [applyPatchArtifacts] at h; subst h; rfl
  | val ids =>
    have he : applyPatchArtifacts t (.val ids) =
        Except.bind (reorderArtifactsByID t.artifacts ids)
          (fun reordered => .ok { t with artifacts := reordered }) := rfl
    rw [he] at h
    cases hr : reorderArtifactsByID t.artifacts ids with
    | error e => rw [hr] at h; simp [Except.bind] at h
    | ok l => rw [hr] at h; simp [Except.bind] at h; subst h; rfl

theorem applyUpdatePatch_organizers {t0 : Trip} {inp : UpdateTripInput} {t' : Trip}
    (h : applyUpdatePatch t0 inp = .ok t') :
    t'.organizerMemberIDs = t0.organizerMemberIDs := by
  have he : applyUpdatePatch t0 inp =
      Except.bind (applyPatchName t0 inp.name) (fun t1 =>
        Except.bind (applyPatchCapacity (applyPatchTexts t1 inp) inp.capacityRigs) (fun t3 =>
          Except.bind (applyPatchArtifacts (applyPatchLocation t3 inp.meetingLocation) inp.artifactIDs)
            (fun t5 => .ok t5))) := rfl
  rw [he] at h
  cases h1 : applyPatchName t0 inp.name with
  | error e => rw [h1] at h; simp [Except.bind] at h
  | ok t1 =>
    rw [h1] at h
    simp only [Except.bind] at h
    cases h3 : applyPatchCapacity (applyPatchTexts t1 inp) inp.capacityRigs with
    | error e => rw [h3] at h; simp at h
    | ok t3 =>
      rw [h3] at h
      simp only [] at h
      cases h5 : applyPatchArtifacts (applyPatchLocation t3 inp.meetingLocation) inp.artifactIDs with
      | error e => rw [h5] at h; simp at h
      | ok t5 =>
        rw [h5] at h
        simp at h
        subst h
        calc t5.organizerMemberIDs
            = (applyPatchLocation t3 inp.meetingLocation).organizerMemberIDs :=
              applyPatchArtifacts_organizers h5
          _ = t3.organizerMemberIDs := applyPatchLocation_organizers _ _
          _ = (applyPatchTexts t1 inp).organizerMemberIDs := applyPatchCapacity_organizers h3
          _ = t1.organizerMemberIDs := applyPatchTexts_organizers _ _
          _ = t0.organizerMemberIDs := applyPatchName_organizers h1

theorem updateTripApply_orgInv {st : St} {t : Trip} (inp : UpdateTripInput) (now : Time)
    (h : OrgInv st) (ht : t.organizerMemberIDs ≠ []) :
    OrgInv (updateTripApply st t inp now).2 := by
  unfold updateTripApply
  cases hap : applyUpdatePatch t inp with
  | error e => simp only [hap]; exact h
  | ok t1 =>
    simp only [hap]
    split_ifs
    · exact h
    · exact orgInv_save h
        (by show t1.organizerMemberIDs ≠ []; rw [applyUpdatePatch_organizers hap]; exact ht)

theorem setMyRSVPWrite_orgInv {st : St} {t : Trip} (caller : MemberID) (tripID : TripID)
    (target : RSVPStatus) (existing : Option RSVP) (now : Time)
    (h : OrgInv st) (ht : t.organizerMemberIDs ≠ []) :
    OrgInv (setMyRSVPWrite st t caller tripID target existing now).2 := by
  unfold setMyRSVPWrite
  cases existing with
  | none =>
    dsimp only
    split_ifs <;> first
      | exact h
      | exact orgInv_save h (by show t.organizerMemberIDs ≠ []; exact ht)
  | some e =>
    dsimp only
    split_ifs <;> first
      | exact h
      | exact orgInv_save h (by show t.organizerMemberIDs ≠ []; exact ht)

/-- Every mutation of the trip service keeps every stored organizer set
non-empty. -/
theorem stepOp_preserves_orgInv (st : St) (op : Op) (h : OrgInv st) :
    OrgInv (stepOp st op) := by
  cases op with
  | createDraft caller name newID now =>
    show OrgInv (createTripDraft st caller name newID now).2
    unfold createTripDraft
    cases hm : membersGetByID st.members caller with
    | none => exact h
    | some m =>
      simp only [hm]
      split
      · exact h
      · cases hc : tripsCreate st.trips
          { id := newID, status := .draft, name := some (normalizeHumanName name),
            description := none, creatorMemberID := caller, organizerMemberIDs := [caller],
            draftVisibility := .priv, startDate := none, endDate := none, capacityRigs := none,
            attendingRigs := none, difficultyText := none, meetingLocation := none,
            commsRequirementsText := none, recommendedRequirementsText := none, artifacts := [],
            createdAt := now, updatedAt := now } with
        | error e => simp only [hc]; exact h
        | ok ts1 =>
          simp only [hc]
          intro u hu
          dsimp only at hu
          rw [tripsCreate_ok hc] at hu
          rcases List.mem_append.mp hu with h1 | h1
          · exact h u h1
          · simp at h1; subst h1; simp
  | update caller id inp now =>
    show OrgInv (updateTrip st caller id inp now).2
    unfold updateTrip
    cases hget : tripsGetByID st.trips id with
    | none => exact h
    | some t =>
      have ht : t.organizerMemberIDs ≠ [] :=
        h t (List.mem_of_find?_eq_some hget)
      simp only [hget]
      cases hs : t.status <;> simp only []
      · split
        · exact h
        · split
          · exact h
          · split
            · exact h
            · exact updateTripApply_orgInv inp now h ht
      · split
        · exact h
        · exact updateTripApply_orgInv inp now h ht
      · exact h
      · exact h
  | setVis caller id dv now =>
    show OrgInv (setTripDraftVisibility st caller id dv now).2
    unfold setTripDraftVisibility
    cases hget : tripsGetByID st.trips id with
    | none => exact h
    | some t =>
      have ht : t.organizerMemberIDs ≠ [] :=
        h t (List.mem_of_find?_eq_some hget)
      simp only [hget]
      split
      · exact h
      · split
        · exact h
        · split
          · exact h
          · split
            · exact h
            · exact orgInv_save h ht
  | addOrg caller id target now =>
    show OrgInv (addTripOrganizer st caller id target now).2
    unfold addTripOrganizer
    cases hget : tripsGetByID st.trips id with
    | none => exact h
    | some t =>
      simp only [hget]
      split
      · exact h
      · split
        · exact h
        · cases hm : membersGetByID st.members target with
          | none => exact h
          | some m =>
            simp only [hm]
            split
            · intro u hu
              refine orgInv_save h ?_ u hu
              simp
            · exact h
  | removeOrg caller id target now =>
    show OrgInv (removeTripOrganizer st caller id target now).2
    unfold removeTripOrganizer
    cases hget : tripsGetByID st.trips id with
    | none => exact h
    | some t =>
      simp only [hget]
      split
      · exact h
      · split
        · exact h
        · split
          · exact h
          · split
            · exact h
            · split
              · exact h
              · rename_i hlen
                refine orgInv_save h ?_
                intro hnil
                dsimp only at hnil
                exact hlen (by rw [hnil]; rfl)
  | cancel caller id now =>
    show OrgInv (cancelTrip st caller id now).2
    unfold cancelTrip
    cases hget : tripsGetByID st.trips id with
    | none => exact h
    | some t =>
      have ht : t.organizerMemberIDs ≠ [] :=
        h t (List.mem_of_find?_eq_some hget)
      simp only [hget]
      split
      · exact h
      · split
        · exact h
        · split
          · exact h
          · split
            · exact h
            · exact orgInv_save h ht
  | publish caller id now =>
    show OrgInv (publishTrip st caller id now).2
    unfold publishTrip
    cases hget : tripsGetByID st.trips id with
    | none => exact h
    | some t =>
      have ht : t.organizerMemberIDs ≠ [] :=
        h t (List.mem_of_find?_eq_some hget)
      simp only [hget]
      split
      · exact h
      · split
        · exact h
        · cases hs : t.status <;> simp only []
          · split
            · exact h
            · split
              · exact h
              · split <;> exact orgInv_save h ht
          · split <;> exact h
          · exact h
          · exact h
  | setRSVP caller id response now =>
    show OrgInv (setMyRSVP st caller id response now).2
    unfold setMyRSVP
    cases hget : tripsGetByID st.trips id with
    | none => exact h
    | some t =>
      have ht : t.organizerMemberIDs ≠ [] :=
        h t (List.mem_of_find?_eq_some hget)
      simp only [hget]
      split
      · exact h
      · split
        · exact h
        · split
          · exact h
          · cases response <;> simp only []
            · cases hex : rsvpGet st.rsvps id caller with
              | none => exact setMyRSVPWrite_orgInv _ _ _ _ _ h ht
              | some e =>
                simp only [hex]
                split
                · exact h
                · exact setMyRSVPWrite_orgInv _ _ _ _ _ h ht
            · cases hex : rsvpGet st.rsvps id caller with
              | none => exact setMyRSVPWrite_orgInv _ _ _ _ _ h ht
              | some e =>
                simp only [hex]
                split
                · exact h
                · exact setMyRSVPWrite_orgInv _ _ _ _ _ h ht
            · cases hex : rsvpGet st.rsvps id caller with
              | none => exact setMyRSVPWrite_orgInv _ _ _ _ _ h ht
              | some e =>
                simp only [hex]
                split
                · exact h
                · exact setMyRSVPWrite_orgInv _ _ _ _ _ h ht
            · exact h

/-- C2: the organizer set is never empty: the creator is the sole initial
organizer of a created draft; adding an existing organizer and removing a
non-organizer change nothing; removing the last remaining organizer fails
409 LAST_ORGANIZER with the trip unchanged; and no sequence of trip-service
mutations can empty any stored organizer set. -/
theorem organizer_set_never_empty :
    (∀ (st : St) (caller : MemberID) (name : String) (newID : TripID) (now : Time)
       (res : TripCreated) (st1 : St),
      createTripDraft st caller name newID now = (.ok res, st1) →
      ∃ t, st1.trips = st.trips ++ [t] ∧ t.organizerMemberIDs = [caller] ∧
        t.creatorMemberID = caller) ∧
    (∀ (st : St) (caller : MemberID) (id : TripID) (target : MemberID) (now : Time)
       (t : Trip), tripsGetByID st.trips id = some t →
      target ∈ t.organizerMemberIDs →
      (addTripOrganizer st caller id target now).2 = st) ∧
    (∀ (st : St) (caller : MemberID) (id : TripID) (target : MemberID) (now : Time)
       (t : Trip), tripsGetByID st.trips id = some t →
      target ∉ t.organizerMemberIDs →
      (removeTripOrganizer st caller id target now).2 = st) ∧
    (∀ (st : St) (id : TripID) (target : MemberID) (now : Time) (t : Trip),
      tripsGetByID st.trips id = some t →
      isTripVisibleToCaller t target = true →
      t.organizerMemberIDs = [target] →
      removeTripOrganizer st target id target now =
        (.error (.app ⟨409, "LAST_ORGANIZER", "cannot remove the last organizer", []⟩), st)) ∧
    (∀ (st : St) (ops : List Op), OrgInv st → OrgInv (ops.foldl stepOp st)) := by
  refine ⟨?_, ?_, ?_, ?_, ?_⟩
  · intro st caller name newID now res st1 h
    unfold createTripDraft at h
    cases hm : membersGetByID st.members caller with
    | none => rw [hm] at h; cases h
    | some m =>
      rw [hm] at h
      dsimp only at h
      split at h
      · cases h
      · cases hc : tripsCreate st.trips
          { id := newID, status := .draft, name := some (normalizeHumanName name),
            description := none, creatorMemberID := caller, organizerMemberIDs := [caller],
            draftVisibility := .priv, startDate := none, endDate := none, capacityRigs := none,
            attendingRigs := none, difficultyText := none, meetingLocation := none,
            commsRequirementsText := none, recommendedRequirementsText := none, artifacts := [],
            createdAt := now, updatedAt := now } with
        | error e => rw [hc] at h; cases h
        | ok ts1 =>
          rw [hc] at h
          cases h
          exact ⟨_, tripsCreate_ok hc, rfl, rfl⟩
  · intro st caller id target now t hget hmem
    unfold addTripOrganizer
    simp only [hget]
    split
    · rfl
    · split
      · rfl
      · cases hm : membersGetByID st.members target with
        | none => simp only [hm]
        | some m =>
          simp only [hm]
          have hc : isOrganizerIDInSlice t.organizerMemberIDs target = true :=
            List.elem_iff.mpr hmem
          rw [if_neg (not_not_intro hc)]
  · intro st caller id target now t hget hmem
    unfold removeTripOrganizer
    simp only [hget]
    split
    · rfl
    · split
      · rfl
      · have hnc : ¬ isOrganizerIDInSlice t.organizerMemberIDs target = true :=
          fun hc => hmem (List.elem_iff.mp hc)
        rw [if_pos hnc]
  · intro st id target now t hget hvis horg
    unfold removeTripOrganizer
    simp only [hget]
    rw [if_neg (not_not_intro hvis)]
    have ho : isOrganizer t target = true := by
      simp [isOrganizer, horg]
    rw [if_neg (not_not_intro ho)]
    have hc : isOrganizerIDInSlice t.organizerMemberIDs target = true := by
      simp [isOrganizerIDInSlice, horg]
    rw [if_neg (not_not_intro hc)]
    rw [if_pos (by simp [horg])]
  · intro st ops h
    induction ops generalizing st with
    | nil => exact h
    | cons op ops ih => exact ih _ (stepOp_preserves_orgInv st op h)

/-- C2 witness: removing the single organizer A of draft T1 (by A) fails with
409 LAST_ORGANIZER and leaves the store unchanged; the invariant survives a
concrete operation sequence. -/
theorem organizer_set_never_empty_witness :
    removeTripOrganizer wStDraft "A" "T1" "A" 7 =
      (.error (.app ⟨409, "LAST_ORGANIZER", "cannot remove the last organizer", []⟩), wStDraft) ∧
    OrgInv ([Op.publish "A" "T1" 5, Op.setRSVP "A" "T1" .yes 6].foldl stepOp wStDraft) := by
  constructor
  · exact organizer_set_never_empty.2.2.2.1 wStDraft "T1" "A" 7 wTripFull
      (by rfl) (by decide) (by decide)
  · exact organizer_set_never_empty.2.2.2.2 wStDraft _ (by decide)

/-! ### PublishTrip error cases (C4, corrected) and success shape (C5, corrected) -/

theorem mem_ite_singleton (a x : String) (c : Prop) [Decidable c] (l : List String) :
    a ∈ (if c then [x] else []) ++ l ↔ (c ∧ a = x) ∨ a ∈ l := by
  split <;> simp_all

/-- C4 (amended): PublishTrip, called by an organizer to whom the trip is
visible (§4.8 — for a PRIVATE draft that means the creator), errors as
specified: idempotent success on PUBLISHED, 409 TRIP_CANCELED on CANCELED,
409 TRIP_PRIVATE_DRAFT on a non-PUBLIC draft, and on a PUBLIC draft with any
required-to-publish field absent 409 TRIP_NOT_READY_TO_PUBLISH whose missing
list names exactly the absent fields; every failure leaves the store
unchanged. -/
theorem publishTrip_error_cases (st : St) (caller : MemberID) (id : TripID)
    (now : Time) (t : Trip)
    (hget : tripsGetByID st.trips id = some t)
    (hvis : isTripVisibleToCaller t caller = true)
    (horg : isOrganizer t caller = true) :
    (t.status = .published → ∀ d, tripDetailsForTrip st t = .ok d →
      publishTrip st caller id now = (.ok (d, announcementCopyFromTrip d), st)) ∧
    (t.status = .canceled →
      publishTrip st caller id now =
        (.error (.app ⟨409, "TRIP_CANCELED", "trip is canceled and cannot be published", []⟩), st)) ∧
    (t.status = .draft → t.draftVisibility ≠ DraftVis.pub →
      publishTrip st caller id now =
        (.error (.app ⟨409, "TRIP_PRIVATE_DRAFT", "private drafts cannot be published", []⟩), st)) ∧
    (t.status = .draft → t.draftVisibility = DraftVis.pub →
      requiredPublishFieldsMissing t ≠ [] →
      publishTrip st caller id now =
        (.error (.app ⟨409, "TRIP_NOT_READY_TO_PUBLISH",
          "trip is missing required fields for publish",
          [("missing", .l (requiredPublishFieldsMissing t))]⟩), st)) ∧
    (∀ f ∈ publishRequiredFieldNames,
      (f ∈ requiredPublishFieldsMissing t ↔ publishFieldAbsent t f)) := by
  have hbase : ∀ (k : Except Err (TripDetails × String) × St),
      (match t.status with
        | TripStatus.published =>
          (match tripDetailsForTrip st t with
           | .error e => (Except.error e, st)
           | .ok d => (.ok (d, announcementCopyFromTrip d), st))
        | TripStatus.canceled =>
          (.error (.app ⟨409, "TRIP_CANCELED", "trip is canceled and cannot be published", []⟩), st)
        | TripStatus.invalid =>
          (.error (.app ⟨409, "TRIP_INVALID_STATUS", "invalid trip status", []⟩), st)
        | TripStatus.draft =>
          if t.draftVisibility ≠ DraftVis.pub then
            (.error (.app ⟨409, "TRIP_PRIVATE_DRAFT", "private drafts cannot be published", []⟩), st)
          else
            let missing := requiredPublishFieldsMissing t
            if missing.length > 0 then
              (.error (.app ⟨409, "TRIP_NOT_READY_TO_PUBLISH",
                "trip is missing required fields for publish",
                [("missing", .l missing)]⟩), st)
            else
              let t1 := { t with status := .published
                                 attendingRigs := some (t.attendingRigs.getD 0)
                                 updatedAt := now }
              let st1 := { st with trips := tripsSave st.trips t1 }
              (match tripDetailsForTrip st1 t1 with
               | .error e => (Except.error e, st1)
               | .ok d => (.ok (d, announcementCopyFromTrip d), st1))) = k →
      publishTrip st caller id now = k := by
    intro k hk
    unfold publishTrip
    simp only [hget]
    rw [if_neg (not_not_intro hvis), if_neg (not_not_intro horg)]
    exact hk
  refine ⟨?_, ?_, ?_, ?_, ?_⟩
  · intro hs d hd
    exact hbase _ (by rw [hs]; simp only [hd])
  · intro hs
    exact hbase _ (by rw [hs])
  · intro hs hdv
    exact hbase _ (by rw [hs]; simp only [if_pos hdv])
  · intro hs hdv hmiss
    refine hbase _ ?_
    rw [hs]
    rw [if_neg (by simp [hdv])]
    simp only [if_pos (List.length_pos.mpr hmiss)]
  · intro f hf
    fin_cases hf <;>
      simp [requiredPublishFieldsMissing, publishFieldAbsent, mem_ite_singleton,
        List.length_eq_zero] <;>
      first
        | (cases t.capacityRigs <;> simp)
        | (cases t.meetingLocation <;> simp)

/-- C4 counterexample to the claim as stated: B is an organizer of the
PRIVATE draft T1, yet PublishTrip by B yields 404 TRIP_NOT_FOUND (visibility
collapse), not 409 TRIP_PRIVATE_DRAFT. -/
theorem publishTrip_organizer_private_draft_counterexample :
    isOrganizer wTripPriv "B" = true ∧
    wTripPriv.status = .draft ∧ wTripPriv.draftVisibility ≠ DraftVis.pub ∧
    publishTrip wStPriv "B" "T1" 9 = (.error eTripNotFound, wStPriv) ∧
    ¬ errHas (publishTrip wStPriv "B" "T1" 9).1 409 "TRIP_PRIVATE_DRAFT" := by
  refine ⟨by decide, by decide, by decide, by decide, ?_⟩
  rintro ⟨e, he, -, hcode⟩
  have h1 : (publishTrip wStPriv "B" "T1" 9).1 = .error (.app e) := he
  rw [show (publishTrip wStPriv "B" "T1" 9).1 = .error eTripNotFound from by decide] at h1
  cases h1
  exact absurd hcode (by decide)

/-- C4 witness: on the fully-populated PUBLIC draft with its description
removed, PublishTrip by the organizer A fails 409 TRIP_NOT_READY_TO_PUBLISH
with exactly ["description"] missing, leaving the store unchanged. -/
theorem publishTrip_error_cases_witness :
    publishTrip ⟨[{ wTripFull with description := none }], [wAlice, wBob], []⟩ "A" "T1" 9 =
      (.error (.app ⟨409, "TRIP_NOT_READY_TO_PUBLISH",
        "trip is missing required fields for publish",
        [("missing", .l ["description"])]⟩),
       ⟨[{ wTripFull with description := none }], [wAlice, wBob], []⟩) ∧
    ("description" ∈ requiredPublishFieldsMissing { wTripFull with description := none } ↔
      publishFieldAbsent { wTripFull with description := none } "description") := by
  have h := publishTrip_error_cases
    ⟨[{ wTripFull with description := none }], [wAlice, wBob], []⟩ "A" "T1" 9
    { wTripFull with description := none } (by rfl) (by decide) (by decide)
  refine ⟨?_, h.2.2.2.2 "description" (by decide)⟩
  have h4 := h.2.2.2.1 (by decide) (by decide) (by decide)
  rw [h4]
  rw [show requiredPublishFieldsMissing { wTripFull with description := none } =
    ["description"] from by decide]

theorem suffix_joinLines (xs : List String) (p : String) :
    p.data <:+ (joinLines (xs ++ [p])).data := by
  induction xs with
  | nil => simp [joinLines]
  | cons x xs ih =>
    cases xs with
    | nil =>
      show p.data <:+ ((x ++ "\n" ++ p : String)).data
      rw [String.data_append]
      exact List.suffix_append _ _
    | cons y ys =>
      show p.data <:+ ((x ++ "\n" ++ joinLines ((y :: ys) ++ [p]) : String)).data
      rw [String.data_append]
      exact (ih).trans (List.suffix_append _ _)

/-- Every announcement copy ends with the U+2019 RSVP prompt. -/
theorem announcement_endsWith_prompt (d : TripDetails) :
    endsWithStr (announcementCopyFromTrip d) rsvpPrompt = true := by
  unfold announcementCopyFromTrip endsWithStr
  rw [decide_eq_true_eq]
  dsimp only
  rw [show ∀ (L : List String), L ++ (["", rsvpPrompt] : List String) =
      (L ++ [""]) ++ [rsvpPrompt] from fun L => by simp]
  exact suffix_joinLines _ _

theorem tripDetailsForTrip_summary {st : St} {t : Trip} {d : TripDetails}
    (h : tripDetailsForTrip st t = .ok d) : d.summary = toDomainSummary t := by
  have he : tripDetailsForTrip st t =
      Except.bind (loadOrganizerSummaries st.members t.organizerMemberIDs) (fun orgs =>
        match t.status with
        | .published | .canceled =>
          Except.bind (tripRSVPSummaryForTrip st t) (fun sum =>
            .ok { toDomainDetails t with
                    organizers := orgs
                    artifacts := t.artifacts
                    rsvpActionsEnabled := decide (t.status = TripStatus.published)
                    rsvpSummary := some sum
                    myRSVP := none })
        | _ =>
          .ok { toDomainDetails t with
                  organizers := orgs
                  artifacts := t.artifacts
                  rsvpActionsEnabled := decide (t.status = TripStatus.published)
                  rsvpSummary := none
                  myRSVP := none }) := by
    unfold tripDetailsForTrip
    cases t.status <;> rfl
  rw [he] at h
  cases ho : loadOrganizerSummaries st.members t.organizerMemberIDs with
  | error e => rw [ho] at h; simp [Except.bind] at h
  | ok orgs =>
    rw [ho] at h
    simp only [Except.bind] at h
    cases hs : t.status <;> rw [hs] at h
    · simp at h; subst h; rfl
    · cases hsum : tripRSVPSummaryForTrip st t with
      | error e => rw [hsum] at h; simp at h
      | ok sum => rw [hsum] at h; simp at h; subst h; rfl
    · cases hsum : tripRSVPSummaryForTrip st t with
      | error e => rw [hsum] at h; simp at h
      | ok sum => rw [hsum] at h; simp at h; subst h; rfl
    · simp at h; subst h; rfl

/-- C5 (amended: the trailing prompt uses the typographic apostrophe U+2019,
"RSVP in the app once you\u2019re ready."): a successful publish of a PUBLIC
draft sets Status=PUBLISHED, initializes AttendingRigs to 0, clears
DraftVisibility in the returned projection, returns the deterministic
announcement copy ending in the prompt, and publishing again returns the
identical copy. -/
theorem publishTrip_success_shape (st : St) (caller : MemberID) (now now2 : Time)
    (t : Trip) (d : TripDetails)
    (hget : tripsGetByID st.trips t.id = some t)
    (hvis : isTripVisibleToCaller t caller = true)
    (horg : isOrganizer t caller = true)
    (hs : t.status = .draft)
    (hdv : t.draftVisibility = DraftVis.pub)
    (hready : requiredPublishFieldsMissing t = [])
    (hatt : t.attendingRigs = none)
    (hd : tripDetailsForTrip (stAfterPublish st t now) (publishedVersion t now) = .ok d) :
    publishTrip st caller t.id now =
      (.ok (d, announcementCopyFromTrip d), stAfterPublish st t now) ∧
    d.summary.status = .published ∧
    d.summary.attendingRigs = some 0 ∧
    d.summary.draftVisibility = none ∧
    endsWithStr (announcementCopyFromTrip d) rsvpPrompt = true ∧
    publishTrip (stAfterPublish st t now) caller t.id now2 =
      (.ok (d, announcementCopyFromTrip d), stAfterPublish st t now) := by
  have hsum := tripDetailsForTrip_summary hd
  have hfirst : publishTrip st caller t.id now =
      (.ok (d, announcementCopyFromTrip d), stAfterPublish st t now) := by
    unfold publishTrip
    simp only [hget]
    rw [if_neg (not_not_intro hvis), if_neg (not_not_intro horg)]
    rw [hs]
    rw [if_neg (by simp [hdv])]
    rw [if_neg (by simp [hready])]
    dsimp only
    rw [hatt]
    have hd2 := hd
    unfold stAfterPublish publishedVersion at hd2
    simp only [Option.getD, hd2]
    unfold stAfterPublish publishedVersion
    rfl
  refine ⟨hfirst, ?_, ?_, ?_, announcement_endsWith_prompt d, ?_⟩
  · rw [hsum]; rfl
  · rw [hsum]; rfl
  · rw [hsum]; rfl
  · unfold publishTrip
    have hget2 : tripsGetByID (stAfterPublish st t now).trips t.id =
        some (publishedVersion t now) :=
      tripsGetByID_tripsSave st.trips _
    simp only [hget2]
    rw [if_neg (not_not_intro (by rfl :
      isTripVisibleToCaller (publishedVersion t now) caller = true))]
    rw [if_neg (not_not_intro (by exact horg :
      isOrganizer (publishedVersion t now) caller = true))]
    simp only [show (publishedVersion t now).status = TripStatus.published from rfl]
    simp only [hd]

/-- C5 witness: publishing the fully-populated PUBLIC draft T1 as A yields the
expected details with AttendingRigs=0 and no draftVisibility, and its copy
ends with the prompt. -/
theorem publishTrip_success_shape_witness :
    publishTrip wStDraft "A" "T1" 5 =
      (.ok (wDetailsPub, announcementCopyFromTrip wDetailsPub),
       stAfterPublish wStDraft wTripFull 5) ∧
    wDetailsPub.summary.attendingRigs = some 0 ∧
    wDetailsPub.summary.draftVisibility = none ∧
    endsWithStr (announcementCopyFromTrip wDetailsPub) rsvpPrompt = true := by
  have h := publishTrip_success_shape wStDraft "A" 5 6 wTripFull wDetailsPub
    (by rfl) (by decide) (by decide) (by decide) (by decide) (by decide) (by decide)
    (by decide)
  exact ⟨h.1, h.2.2.1, h.2.2.2.1, h.2.2.2.2.1⟩

/-- C5 counterexample to the claim as stated: the announcement copy of a
concrete publish does NOT end with the ASCII-apostrophe prompt the spec
quotes; it ends with the U+2019 variant (the two strings differ). -/
theorem announcement_prompt_counterexample :
    asciiPrompt ≠ rsvpPrompt ∧
    (publishTrip wStDraft "A" "T1" 5).1.map
      (fun r => endsWithStr r.2 asciiPrompt) = .ok false ∧
    (publishTrip wStDraft "A" "T1" 5).1.map
      (fun r => endsWithStr r.2 rsvpPrompt) = .ok true := by
  refine ⟨by decide, by decide, by decide⟩

/-! ### SetMyRSVP follows the UC-11 algorithm (C1) -/

theorem setMyRSVPWrite_eq (st : St) (t : Trip) (caller : MemberID) (id : TripID)
    (target : RSVPStatus) (ex : Option RSVP) (now : Time) (cap : Int)
    (hcap : t.capacityRigs = some cap) :
    setMyRSVPWrite st t caller id target ex now =
      (let newAtt := max 0 ((countYesByTrip st.rsvps id : Int) +
          rsvpDelta (ex.map RSVP.status) target)
       if target = RSVPStatus.yes ∧ newAtt > cap then
         ((.error (.app ⟨409, "TRIP_AT_CAPACITY", "trip is at capacity", []⟩) :
            Except Err MyRSVP), st)
       else (.ok ⟨id, caller, target, now⟩,
             stAfterRSVP st t id caller target now newAtt)) := by
  cases ex with
  | none =>
    cases target <;>
      simp [setMyRSVPWrite, rsvpDelta, stAfterRSVP, hcap]
  | some e =>
    by_cases he : e.status = RSVPStatus.yes <;>
      cases target <;>
        simp [setMyRSVPWrite, rsvpDelta, stAfterRSVP, hcap, he]

theorem setMyRSVP_reduce (st : St) (caller : MemberID) (id : TripID)
    (response : RSVPStatus) (now : Time) (t : Trip) (cap : Int)
    (hget : tripsGetByID st.trips id = some t)
    (hvis : isTripVisibleToCaller t caller = true)
    (hpub : t.status = .published)
    (hcap : t.capacityRigs = some cap)
    (hcap1 : 1 ≤ cap)
    (hresp : response ≠ .invalid) :
    setMyRSVP st caller id response now =
      (match rsvpGet st.rsvps id caller with
       | some e =>
         if e.status = response then
           ((.ok ⟨id, caller, e.status, e.updatedAt⟩ : Except Err MyRSVP), st)
         else setMyRSVPWrite st t caller id response (some e) now
       | none => setMyRSVPWrite st t caller id response none now) := by
  cases response with
  | invalid => exact absurd rfl hresp
  | yes =>
    unfold setMyRSVP
    simp only [hget]
    rw [if_neg (not_not_intro hvis)]
    rw [if_neg (not_not_intro hpub)]
    rw [if_neg (by simp [hcap]; omega)]
  | no =>
    unfold setMyRSVP
    simp only [hget]
    rw [if_neg (not_not_intro hvis)]
    rw [if_neg (not_not_intro hpub)]
    rw [if_neg (by simp [hcap]; omega)]
  | unset =>
    unfold setMyRSVP
    simp only [hget]
    rw [if_neg (not_not_intro hvis)]
    rw [if_neg (not_not_intro hpub)]
    rw [if_neg (by simp [hcap]; omega)]

/-- C1: for a caller-visible PUBLISHED trip with CapacityRigs ≥ 1 and a valid
response value, SetMyRSVP follows the UC-11 algorithm: same-value writes are
no-ops returning the stored record with UpdatedAt preserved and no state
change; otherwise attendance is recounted from the persisted RSVP records,
the delta is -1 when leaving YES, +1 when entering YES and 0 otherwise,
newAtt = max(0, curAtt+delta), a YES exceeding capacity fails 409
TRIP_AT_CAPACITY with no state change, and otherwise newAtt is persisted on
the trip and the RSVP is upserted with UpdatedAt = now and returned. -/
theorem setMyRSVP_follows_spec (st : St) (caller : MemberID) (id : TripID)
    (response : RSVPStatus) (now : Time) (t : Trip) (cap : Int)
    (hget : tripsGetByID st.trips id = some t)
    (hvis : isTripVisibleToCaller t caller = true)
    (hpub : t.status = .published)
    (hcap : t.capacityRigs = some cap)
    (hcap1 : 1 ≤ cap)
    (hresp : response ≠ .invalid) :
    (∀ e, rsvpGet st.rsvps id caller = some e → e.status = response →
      setMyRSVP st caller id response now = (.ok ⟨id, caller, e.status, e.updatedAt⟩, st)) ∧
    ((∀ e, rsvpGet st.rsvps id caller = some e → e.status ≠ response) →
      setMyRSVP st caller id response now =
        (let newAtt := max 0 ((countYesByTrip st.rsvps id : Int) +
            rsvpDelta ((rsvpGet st.rsvps id caller).map RSVP.status) response)
         if response = RSVPStatus.yes ∧ newAtt > cap then
           ((.error (.app ⟨409, "TRIP_AT_CAPACITY", "trip is at capacity", []⟩) :
              Except Err MyRSVP), st)
         else (.ok ⟨id, caller, response, now⟩,
               stAfterRSVP st t id caller response now newAtt))) := by
  rw [setMyRSVP_reduce st caller id response now t cap hget hvis hpub hcap hcap1 hresp]
  constructor
  · intro e he hst
    simp only [he]
    rw [if_pos hst]
  · intro hne
    cases hex : rsvpGet st.rsvps id caller with
    | none =>
      simp only [hex]
      rw [setMyRSVPWrite_eq st t caller id response none now cap hcap]
    | some e =>
      simp only [hex]
      rw [if_neg (hne e hex)]
      rw [setMyRSVPWrite_eq st t caller id response (some e) now cap hcap]

/-- C1 witness: on the published capacity-1 trip where A already RSVPed YES,
a YES from B hits 409 TRIP_AT_CAPACITY with the store unchanged. -/
theorem setMyRSVP_follows_spec_witness :
    setMyRSVP wStPub "B" "T1" .yes 7 =
      (.error (.app ⟨409, "TRIP_AT_CAPACITY", "trip is at capacity", []⟩), wStPub) := by
  have hnone : rsvpGet wStPub.rsvps "T1" "B" = none := by decide
  have h := (setMyRSVP_follows_spec wStPub "B" "T1" .yes 7 wTripPub 1
    (by rfl) (by decide) (by decide) (by decide) (by decide) (by decide)).2
    (fun e he => by rw [hnone] at he; cases he)
  rw [h]
  decide

/-! ### UpdateTrip capacity errors (C8) -/

theorem bind_error_cases {α β : Type} {x : Except Err α} {f : α → Except Err β} {e : Err}
    (h : Except.bind x f = .error e) : x = .error e ∨ ∃ a, x = .ok a ∧ f a = .error e := by
  cases x with
  | error e2 =>
    left
    cases h
    rfl
  | ok a => exact .inr ⟨a, rfl, h⟩

theorem loadOrganizerSummaries_error (ms : List Member) (ids : List MemberID) (e : Err)
    (h : loadOrganizerSummaries ms ids = .error e) : e = .store := by
  induction ids with
  | nil => simp [loadOrganizerSummaries] at h
  | cons id ids ih =>
    unfold loadOrganizerSummaries at h
    cases hm : membersGetByID ms id with
    | none =>
      rw [hm] at h
      cases h
      rfl
    | some m =>
      rw [hm] at h
      simp only [Bind.bind] at h
      rcases bind_error_cases h with h1 | ⟨a, ha, h2⟩
      · exact ih h1
      · cases h2

theorem loadMemberSummariesSorted_error (ms : List Member) (ids : List MemberID) (e : Err)
    (h : loadMemberSummariesSorted ms ids = .error e) : e = .store := by
  unfold loadMemberSummariesSorted at h
  simp only [Bind.bind] at h
  rcases bind_error_cases h with h1 | ⟨a, ha, h2⟩
  · exact loadOrganizerSummaries_error ms ids e h1
  · cases h2

theorem tripRSVPSummaryForTrip_error (st : St) (t : Trip) (e : Err)
    (h : tripRSVPSummaryForTrip st t = .error e) : e = .store := by
  unfold tripRSVPSummaryForTrip at h
  simp only [Bind.bind] at h
  rcases bind_error_cases h with h1 | ⟨a, ha, h2⟩
  · exact loadMemberSummariesSorted_error _ _ _ h1
  · rcases bind_error_cases h2 with h3 | ⟨b, hb, h4⟩
    · exact loadMemberSummariesSorted_error _ _ _ h3
    · cases h4

theorem tripDetailsForTrip_error (st : St) (t : Trip) (e : Err)
    (h : tripDetailsForTrip st t = .error e) : e = .store := by
  unfold tripDetailsForTrip at h
  simp only [Bind.bind] at h
  rcases bind_error_cases h with h1 | ⟨orgs, ha, h2⟩
  · exact loadOrganizerSummaries_error _ _ _ h1
  · cases hs : t.status with
    | published =>
      rw [hs] at h2
      rcases bind_error_cases h2 with h3 | ⟨s, hb, h4⟩
      · exact tripRSVPSummaryForTrip_error _ _ _ h3
      · cases h4
    | canceled =>
      rw [hs] at h2
      rcases bind_error_cases h2 with h3 | ⟨s, hb, h4⟩
      · exact tripRSVPSummaryForTrip_error _ _ _ h3
      · cases h4
    | draft =>
      rw [hs] at h2
      cases h2
    | invalid =>
      rw [hs] at h2
      cases h2

/-- C8: UpdateTrip by an organizer of a published trip with capacityRigs = v:
v < 1 gives 422 VALIDATION_ERROR, 1 ≤ v < attendance gives 409
CAPACITY_BELOW_ATTENDANCE (details naming the attending count), both leaving
state unchanged; and conversely CAPACITY_BELOW_ATTENDANCE occurs only when
1 ≤ v and v is below the number of YES RSVP records. -/
theorem updateTrip_capacity_check (st : St) (caller : MemberID) (id : TripID)
    (now : Time) (t : Trip) (att v : Int)
    (hget : tripsGetByID st.trips id = some t)
    (hpub : t.status = .published)
    (horg : isOrganizer t caller = true)
    (hatt : t.attendingRigs = some att)
    (hattinv : att = (countYesByTrip st.rsvps id : Int)) :
    (v < 1 → updateTrip st caller id { capacityRigs := Tri.val v } now =
      (.error (.app ⟨422, "VALIDATION_ERROR", "invalid capacityRigs",
        [("capacityRigs", .s "must be >= 1")]⟩), st)) ∧
    (1 ≤ v → v < att → updateTrip st caller id { capacityRigs := Tri.val v } now =
      (.error (.app ⟨409, "CAPACITY_BELOW_ATTENDANCE",
        "capacity cannot be reduced below current attendance",
        [("attendingRigs", .i att)]⟩), st)) ∧
    (errHas (updateTrip st caller id { capacityRigs := Tri.val v } now).1
        409 "CAPACITY_BELOW_ATTENDANCE" →
      1 ≤ v ∧ v < (countYesByTrip st.rsvps id : Int)) := by
  have h1 : updateTrip st caller id { capacityRigs := Tri.val v } now =
      updateTripApply st t { capacityRigs := Tri.val v } now := by
    unfold updateTrip
    simp only [hget, hpub]
    rw [if_neg (not_not_intro horg)]
  have happ : applyUpdatePatch t { capacityRigs := Tri.val v } =
      Except.bind (applyPatchCapacity t (Tri.val v)) (fun t3 => Except.ok t3) := rfl
  have hcap0 : applyPatchCapacity t (Tri.val v) =
      (if v < 1 then
        .error (.app ⟨422, "VALIDATION_ERROR", "invalid capacityRigs",
          [("capacityRigs", .s "must be >= 1")]⟩)
      else
        let curAtt : Int := t.attendingRigs.getD 0
        if t.status = TripStatus.published ∧ v < curAtt then
          .error (.app ⟨409, "CAPACITY_BELOW_ATTENDANCE",
            "capacity cannot be reduced below current attendance",
            [("attendingRigs", .i curAtt)]⟩)
        else .ok (tCapSet t v)) := rfl
  have hlow : v < 1 → updateTrip st caller id { capacityRigs := Tri.val v } now =
      (.error (.app ⟨422, "VALIDATION_ERROR", "invalid capacityRigs",
        [("capacityRigs", .s "must be >= 1")]⟩), st) := by
    intro hv
    have hcapstep : applyPatchCapacity t (Tri.val v) =
        .error (.app ⟨422, "VALIDATION_ERROR", "invalid capacityRigs",
          [("capacityRigs", .s "must be >= 1")]⟩) := by
      rw [hcap0, if_pos hv]
    rw [h1]
    unfold updateTripApply
    rw [show applyUpdatePatch t { capacityRigs := Tri.val v } =
      .error (.app ⟨422, "VALIDATION_ERROR", "invalid capacityRigs",
        [("capacityRigs", .s "must be >= 1")]⟩) from happ.trans (by rw [hcapstep]; rfl)]
  have hmid : 1 ≤ v → v < att →
      updateTrip st caller id { capacityRigs := Tri.val v } now =
      (.error (.app ⟨409, "CAPACITY_BELOW_ATTENDANCE",
        "capacity cannot be reduced below current attendance",
        [("attendingRigs", .i att)]⟩), st) := by
    intro hv1 hva
    have hcapstep : applyPatchCapacity t (Tri.val v) =
        .error (.app ⟨409, "CAPACITY_BELOW_ATTENDANCE",
          "capacity cannot be reduced below current attendance",
          [("attendingRigs", .i att)]⟩) := by
      rw [hcap0, if_neg (by omega)]
      dsimp only
      rw [hatt]
      simp only [Option.getD_some]
      rw [if_pos ⟨hpub, hva⟩]
    rw [h1]
    unfold updateTripApply
    rw [show applyUpdatePatch t { capacityRigs := Tri.val v } =
      .error (.app ⟨409, "CAPACITY_BELOW_ATTENDANCE",
        "capacity cannot be reduced below current attendance",
        [("attendingRigs", .i att)]⟩) from happ.trans (by rw [hcapstep]; rfl)]
  refine ⟨hlow, hmid, ?_⟩
  intro herr
  obtain ⟨e, he, hst, hcode⟩ := herr
  by_cases hv : v < 1
  · rw [hlow hv] at he
    dsimp only at he
    cases he
    simp at hcode
  · by_cases hva : v < att
    · exact ⟨by omega, hattinv ▸ hva⟩
    · exfalso
      have hok : applyPatchCapacity t (Tri.val v) = .ok (tCapSet t v) := by
        rw [hcap0, if_neg hv]
        dsimp only
        rw [hatt]
        simp only [Option.getD_some]
        rw [if_neg (fun hc => hva hc.2)]
      have hupd : applyUpdatePatch t { capacityRigs := Tri.val v } =
          .ok (tCapSet t v) := happ.trans (by rw [hok]; rfl)
      rw [h1] at he
      have hred : updateTripApply st t { capacityRigs := Tri.val v } now =
          (if (match (tCapSet t v).startDate, (tCapSet t v).endDate with
              | some sd, some ed => ed.before sd
              | _, _ => false) = true then
            (.error (.app ⟨422, "VALIDATION_ERROR", "invalid date range",
              [("endDate", .s "must be on or after startDate")]⟩), st)
          else
            (tripDetailsForTrip (stCapUpd st t v now) (tCapUpd t v now),
             stCapUpd st t v now)) := by
        unfold updateTripApply
        rw [hupd]
        rfl
      rw [hred] at he
      by_cases hd : (match (tCapSet t v).startDate, (tCapSet t v).endDate with
          | some sd, some ed => ed.before sd
          | _, _ => false) = true
      · rw [if_pos hd] at he
        dsimp only at he
        cases he
        simp at hcode
      · rw [if_neg hd] at he
        dsimp only at he
        have h5 := tripDetailsForTrip_error _ _ _ he
        cases h5

theorem updateTrip_capacity_check_witness :
    updateTrip wStPub2 "A" "T1" { capacityRigs := Tri.val 1 } 9 =
      (.error (.app ⟨409, "CAPACITY_BELOW_ATTENDANCE",
        "capacity cannot be reduced below current attendance",
        [("attendingRigs", .i 2)]⟩), wStPub2) :=
  (updateTrip_capacity_check wStPub2 "A" "T1" 9 wTripPub2 2 1
    (by decide) rfl (by decide) rfl (by decide)).2.1 (by decide) (by decide)

/-! ### BodyHash canonicalization (C7, corrected) -/

/-- C7: the BodyHash depends only on the canonicalized body (names normalized
per §4.1, emails trimmed), so canonicalization-equal bodies share the hash and
hence the fingerprint for a fixed key, subject, method and route; likewise for
CreateTripDraft with the normalized trip name. -/
theorem bodyHash_canonicalization (b1 b2 : UpdateProfileBody) (c1 c2 : CreateTripBody)
    (k : String) (s : SubjectID)
    (h : canonicalizeUpdateProfileBody b1 = canonicalizeUpdateProfileBody b2)
    (h2 : normalizeHumanName c1.name = normalizeHumanName c2.name) :
    hashUpdateMyMemberProfileBody b1 = hashUpdateMyMemberProfileBody b2 ∧
    (⟨k, s, "PATCH", "/members/me", hashUpdateMyMemberProfileBody b1⟩ : Fingerprint) =
      ⟨k, s, "PATCH", "/members/me", hashUpdateMyMemberProfileBody b2⟩ ∧
    hashCreateTripDraftBody c1 = hashCreateTripDraftBody c2 ∧
    (⟨k, s, "POST", "/trips", hashCreateTripDraftBody c1⟩ : Fingerprint) =
      ⟨k, s, "POST", "/trips", hashCreateTripDraftBody c2⟩ := by
  unfold hashUpdateMyMemberProfileBody hashCreateTripDraftBody
  rw [h, h2]
  exact ⟨rfl, rfl, rfl, rfl⟩

theorem bodyHash_email_case_counterexample :
    specCanonicalizeUpdateProfileBody ⟨.unspec, some "alice@x.io", .unspec, none⟩ =
      specCanonicalizeUpdateProfileBody ⟨.unspec, some "Alice@X.io", .unspec, none⟩ ∧
    hashUpdateMyMemberProfileBody ⟨.unspec, some "alice@x.io", .unspec, none⟩ ≠
      hashUpdateMyMemberProfileBody ⟨.unspec, some "Alice@X.io", .unspec, none⟩ := by
  decide

theorem bodyHash_canonicalization_witness :
    hashUpdateMyMemberProfileBody ⟨.val "Alice  Smith ", some " bob@x.io ", .unspec, none⟩ =
      hashUpdateMyMemberProfileBody ⟨.val " Alice Smith", some "bob@x.io", .unspec, none⟩ ∧
    hashCreateTripDraftBody ⟨" Snow  Run "⟩ = hashCreateTripDraftBody ⟨"Snow Run"⟩ :=
  let r := bodyHash_canonicalization
    ⟨.val "Alice  Smith ", some " bob@x.io ", .unspec, none⟩
    ⟨.val " Alice Smith", some "bob@x.io", .unspec, none⟩
    ⟨" Snow  Run "⟩ ⟨"Snow Run"⟩ "k" "s" (by decide) (by decide)
  ⟨r.1, r.2.2.1⟩

/-! ### Member search (C9) -/

theorem isWhitespace_toLower (c : Char) :
    c.toLower.isWhitespace = c.isWhitespace := by
  by_cases h : c.toNat ≥ 65 ∧ c.toNat ≤ 90
  · obtain ⟨h1, h2⟩ := h
    have key : ∀ n : Nat, 65 ≤ n → n ≤ 90 →
        (Char.ofNat n).toLower.isWhitespace = (Char.ofNat n).isWhitespace := by
      intro n hn1 hn2
      interval_cases n <;> decide
    rw [← Char.ofNat_toNat c]
    exact key c.toNat h1 h2
  · simp only [Char.toLower]
    rw [if_neg h]

theorem dropWhile_ne_nil_head (p : Char → Bool) (l : List Char)
    (h : l.dropWhile p ≠ []) :
    ∃ c rest, l.dropWhile p = c :: rest ∧ p c = false := by
  induction l with
  | nil => simp [List.dropWhile] at h
  | cons a l ih =>
    rw [List.dropWhile_cons] at h ⊢
    by_cases hp : p a = true
    · rw [if_pos hp] at h ⊢
      exact ih h
    · rw [if_neg hp] at h ⊢
      exact ⟨a, l, rfl, by simpa using hp⟩

theorem mem_dropWhile_of_not (p : Char → Bool) (c : Char) (hc : p c = false) :
    ∀ (l : List Char), c ∈ l → c ∈ l.dropWhile p := by
  intro l
  induction l with
  | nil => intro h; exact absurd h (List.not_mem_nil c)
  | cons a l ih =>
    intro h
    rw [List.dropWhile_cons]
    by_cases hp : p a = true
    · rw [if_pos hp]
      rcases List.mem_cons.mp h with h1 | hm
      · rw [h1] at hc; rw [hc] at hp; cases hp
      · exact ih hm
    · rw [if_neg hp]
      exact h

theorem trimChars_mem_not_ws (l : List Char) (h : trimChars l ≠ []) :
    ∃ c ∈ trimChars l, c.isWhitespace = false := by
  have hD0 : (l.dropWhile Char.isWhitespace).reverse.dropWhile Char.isWhitespace ≠ [] := by
    intro hnil
    apply h
    unfold trimChars
    rw [hnil]
    rfl
  obtain ⟨c, rest, hcr, hcw⟩ := dropWhile_ne_nil_head Char.isWhitespace _ hD0
  refine ⟨c, ?_, hcw⟩
  unfold trimChars
  rw [hcr]
  exact List.mem_reverse.mpr (List.mem_cons_self c rest)

theorem mem_trimChars_of_not_ws (l : List Char) (c : Char) (hc : c.isWhitespace = false)
    (h : c ∈ l) : c ∈ trimChars l := by
  unfold trimChars
  exact List.mem_reverse.mpr
    (mem_dropWhile_of_not _ _ hc _
      (List.mem_reverse.mpr (mem_dropWhile_of_not _ _ hc _ h)))

theorem fieldsAux_ne_nil (l : List Char) : ∀ (acc : List Char),
    (acc ≠ [] ∨ ∃ c ∈ l, c.isWhitespace = false) → fieldsAux acc l ≠ [] := by
  induction l with
  | nil =>
    intro acc h
    rcases h with h | ⟨c, hc, _⟩
    · have he : fieldsAux acc ([] : List Char) =
          (if acc = [] then [] else [acc.reverse]) := rfl
      rw [he, if_neg h]
      simp
    · exact absurd hc (List.not_mem_nil c)
  | cons a l ih =>
    intro acc h
    have he : fieldsAux acc (a :: l) =
        (if a.isWhitespace then
          (if acc = [] then fieldsAux [] l else acc.reverse :: fieldsAux [] l)
        else fieldsAux (a :: acc) l) := rfl
    rw [he]
    by_cases ha : a.isWhitespace = true
    · rw [if_pos ha]
      by_cases hacc : acc = []
      · rw [if_pos hacc]
        apply ih
        right
        rcases h with h | ⟨c, hc, hcw⟩
        · exact absurd hacc h
        · rcases List.mem_cons.mp hc with h1 | hm
          · rw [h1] at hcw; rw [hcw] at ha; cases ha
          · exact ⟨c, hm, hcw⟩
      · rw [if_neg hacc]
        simp
    · rw [if_neg ha]
      exact ih (a :: acc) (Or.inl (List.cons_ne_nil a acc))

theorem tokenize_goTrim_ne_nil (query : String) (h3 : 3 ≤ (goTrim query).length) :
    tokenize (goTrim query) ≠ [] := by
  have hqne : trimChars query.data ≠ [] := by
    intro hnil
    have hl : (goTrim query).length = (trimChars query.data).length := rfl
    rw [hl, hnil] at h3
    simp at h3
  obtain ⟨c, hcmem, hcw⟩ := trimChars_mem_not_ws _ hqne
  have hc2 : c ∈ trimChars (goTrim query).data :=
    mem_trimChars_of_not_ws _ _ hcw hcmem
  have hmem2 : c.toLower ∈ (lowerStr (goTrim (goTrim query))).data := by
    show c.toLower ∈ (trimChars (goTrim query).data).map Char.toLower
    exact List.mem_map.mpr ⟨c, hc2, rfl⟩
  have hwl : (c.toLower).isWhitespace = false := by
    rw [isWhitespace_toLower]; exact hcw
  have hs1ne : lowerStr (goTrim (goTrim query)) ≠ "" := by
    intro hnil
    rw [hnil] at hmem2
    exact absurd hmem2 (List.not_mem_nil _)
  show (if lowerStr (goTrim (goTrim query)) = "" then []
    else goFields (lowerStr (goTrim (goTrim query)))) ≠ []
  rw [if_neg hs1ne]
  unfold goFields
  intro hnil
  rw [List.map_eq_nil_iff] at hnil
  exact fieldsAux_ne_nil (lowerStr (goTrim (goTrim query))).data []
    (Or.inr ⟨c.toLower, hmem2, hwl⟩) hnil

/-- C9: SearchMembers rejects a trimmed query under 3 code points with 422
VALIDATION_ERROR; otherwise it returns the active members matching every
lowercased whitespace token as a substring of lower(displayName), ordered by
(lower(displayName), MemberID) ascending, truncated to the positive configured
limit. -/
theorem searchMembers_spec (ms : List Member) (query : String) (limit : Nat) :
    ((goTrim query).length < 3 → searchMembers ms query limit =
      .error (.app ⟨422, "VALIDATION_ERROR", "invalid search query",
        [("q", .s "must be at least 3 characters")]⟩)) ∧
    (3 ≤ (goTrim query).length → 0 < limit →
      ∃ l, List.Perm (ms.filter (fun m => m.isActive ∧
              matchesAllTokens m.displayName (tokenize (goTrim query)))) l ∧
        List.Sorted memberLE l ∧
        searchMembers ms query limit = .ok (l.take limit)) := by
  have hsm : searchMembers ms query limit =
      (if (goTrim query).length < 3 then
        .error (.app ⟨422, "VALIDATION_ERROR", "invalid search query",
          [("q", .s "must be at least 3 characters")]⟩)
      else .ok (searchActiveByDisplayName ms (goTrim query) limit)) := rfl
  constructor
  · intro h
    rw [hsm, if_pos h]
  · intro h3 hlim
    refine ⟨List.insertionSort memberLE (ms.filter (fun m => m.isActive ∧
        matchesAllTokens m.displayName (tokenize (goTrim query)))),
      (List.perm_insertionSort _ _).symm, List.sorted_insertionSort _ _, ?_⟩
    rw [hsm, if_neg (by omega)]
    have hsa : searchActiveByDisplayName ms (goTrim query) limit =
        (if (tokenize (goTrim query)).length = 0 then []
        else
          if 0 < limit ∧ limit <
              (List.insertionSort memberLE (ms.filter (fun m => m.isActive ∧
                matchesAllTokens m.displayName (tokenize (goTrim query))))).length then
            (List.insertionSort memberLE (ms.filter (fun m => m.isActive ∧
              matchesAllTokens m.displayName (tokenize (goTrim query))))).take limit
          else List.insertionSort memberLE (ms.filter (fun m => m.isActive ∧
            matchesAllTokens m.displayName (tokenize (goTrim query))))) := rfl
    have htok := tokenize_goTrim_ne_nil query h3
    rw [hsa, if_neg (by rw [List.length_eq_zero]; exact htok)]
    by_cases hl : limit < (List.insertionSort memberLE (ms.filter (fun m => m.isActive ∧
        matchesAllTokens m.displayName (tokenize (goTrim query))))).length
    · rw [if_pos ⟨hlim, hl⟩]
    · rw [if_neg (fun hc => hl hc.2)]
      rw [List.take_of_length_le (by omega)]

theorem searchMembers_spec_witness :
    ∃ l, List.Perm ([wAlice, wBob, wCarol].filter (fun m => m.isActive ∧
        matchesAllTokens m.displayName (tokenize (goTrim "  Ali ")))) l ∧
      List.Sorted memberLE l ∧
      searchMembers [wAlice, wBob, wCarol] "  Ali " defaultSearchLimit =
        .ok (l.take defaultSearchLimit) :=
  (searchMembers_spec [wAlice, wBob, wCarol] "  Ali " defaultSearchLimit).2
    (by decide) (by decide)

/-! ### Email uniqueness excludes self (C10) -/

theorem ensureEmailUnique_eq (ms : List Member) (email : String) (m0id : String)
    (hid : m0id ≠ "") :
    ensureEmailUnique ms email m0id =
      (if ∃ m' ∈ ms, m'.id ≠ m0id ∧ equalFold m'.email email = true then
        some (.app ⟨409, "EMAIL_ALREADY_IN_USE", "email address is already in use", []⟩)
      else none) := by
  unfold ensureEmailUnique
  by_cases hex : ∃ m' ∈ ms, m'.id ≠ m0id ∧ equalFold m'.email email = true
  · rw [if_pos hex, if_pos ?hc]
    case hc =>
      rw [List.any_eq_true]
      obtain ⟨m', hm', hne, heq⟩ := hex
      refine ⟨m', ?_, heq⟩
      rw [List.mem_filter]
      constructor
      · unfold membersList
        refine (List.Perm.mem_iff (List.perm_insertionSort _ _)).mpr ?_
        rw [List.mem_filter]
        exact ⟨hm', by simp⟩
      · simp only [decide_eq_true_eq]
        rintro ⟨_, hc2⟩
        exact hne hc2
  · rw [if_neg hex, if_neg ?hc2]
    case hc2 =>
      rw [List.any_eq_true]
      rintro ⟨m', hmem, heq⟩
      apply hex
      rw [List.mem_filter] at hmem
      obtain ⟨hmem1, hpred⟩ := hmem
      refine ⟨m', ?_, ?_, heq⟩
      · unfold membersList at hmem1
        have hmem2 := (List.Perm.mem_iff (List.perm_insertionSort _ _)).mp hmem1
        rw [List.mem_filter] at hmem2
        exact hmem2.1
      · simp only [decide_eq_true_eq] at hpred
        intro hcid
        exact hpred ⟨hid, hcid⟩

/-- C10: the email-uniqueness check of UpdateMyMemberProfile excludes the
caller's own record: with a provisioned caller (non-empty id) and a valid
trimmed email, the call fails 409 EMAIL_ALREADY_IN_USE exactly when some OTHER
member (active or inactive) has a case-insensitively equal email; and when the
email collides with nobody else (own record included or not), the update
succeeds and stores the trimmed email. -/
theorem updateProfile_email_excludes_self (ms : List Member) (subject : SubjectID)
    (m0 : Member) (e : String) (now : Time)
    (hm0 : membersGetBySubject ms subject = some m0)
    (hid : m0.id ≠ "")
    (hvalid : validateEmail (goTrim e) = true) :
    ((updateMyMemberProfile ms subject { email := .val e } now).1 =
        .error (.app ⟨409, "EMAIL_ALREADY_IN_USE",
          "email address is already in use", []⟩) ↔
      ∃ m' ∈ ms, m'.id ≠ m0.id ∧ equalFold m'.email (goTrim e) = true) ∧
    ((¬ ∃ m' ∈ ms, m'.id ≠ m0.id ∧ equalFold m'.email (goTrim e) = true) →
      updateMyMemberProfile ms subject { email := .val e } now =
        (.ok { m0 with email := goTrim e, updatedAt := now },
         membersUpdate ms { m0 with email := goTrim e, updatedAt := now })) := by
  have hred : updateMyMemberProfile ms subject { email := .val e } now =
      (match ensureEmailUnique ms (goTrim e) m0.id with
       | some er => (.error er, ms)
       | none => (.ok { m0 with email := goTrim e, updatedAt := now },
                  membersUpdate ms { m0 with email := goTrim e, updatedAt := now })) := by
    unfold updateMyMemberProfile
    rw [hm0]
    show (match (if ¬ validateEmail (goTrim e) = true then
          (.error (.app ⟨422, "VALIDATION_ERROR", "invalid email",
            [("email", .s "invalid")]⟩) : Except Err Member)
        else
          match ensureEmailUnique ms (goTrim e) m0.id with
          | some er => .error er
          | none => .ok { m0 with email := goTrim e }) with
      | .error er => ((.error er : Except Err Member), ms)
      | .ok m2 => (.ok { m2 with updatedAt := now },
                   membersUpdate ms { m2 with updatedAt := now })) = _
    rw [if_neg (not_not_intro hvalid)]
    cases hu : ensureEmailUnique ms (goTrim e) m0.id with
    | some er => rfl
    | none => rfl
  rw [hred, ensureEmailUnique_eq ms (goTrim e) m0.id hid]
  constructor
  · by_cases hex : ∃ m' ∈ ms, m'.id ≠ m0.id ∧ equalFold m'.email (goTrim e) = true
    · rw [if_pos hex]
      exact iff_of_true rfl hex
    · rw [if_neg hex]
      exact iff_of_false (fun h => by cases h) hex
  · intro hnex
    rw [if_neg hnex]

theorem updateProfile_email_excludes_self_witness :
    (updateMyMemberProfile [wAlice, wBob] "sa" { email := .val " BOB@x.io " } 7).1 =
      .error (.app ⟨409, "EMAIL_ALREADY_IN_USE",
        "email address is already in use", []⟩) ∧
    updateMyMemberProfile [wAlice, wBob] "sa" { email := .val " ALICE@x.io " } 7 =
      (.ok { wAlice with email := "ALICE@x.io", updatedAt := 7 },
       membersUpdate [wAlice, wBob] { wAlice with email := "ALICE@x.io", updatedAt := 7 }) :=
  ⟨((updateProfile_email_excludes_self [wAlice, wBob] "sa" wAlice " BOB@x.io " 7
      (by decide) (by decide) (by decide)).1).mpr ⟨wBob, by decide, by decide, by decide⟩,
   (updateProfile_email_excludes_self [wAlice, wBob] "sa" wAlice " ALICE@x.io " 7
      (by decide) (by decide) (by decide)).2 (by decide)⟩

/-! ### Idempotency protocol (C6) -/

theorem hashUpdateProfile_ne_empty (b : UpdateProfileBody) :
    hashUpdateMyMemberProfileBody b ≠ "" := by
  intro hc
  have hl := congrArg String.length hc
  simp only [hashUpdateMyMemberProfileBody, String.length_append] at hl
  rw [show ("update-profile;" : String).length = 15 from rfl,
    show ("" : String).length = 0 from rfl] at hl
  omega

theorem hashCreateTrip_ne_empty (b : CreateTripBody) :
    hashCreateTripDraftBody b ≠ "" := by
  intro hc
  have hl := congrArg String.length hc
  simp only [hashCreateTripDraftBody, String.length_append] at hl
  rw [show ("create-trip;" : String).length = 12 from rfl,
    show ("" : String).length = 0 from rfl] at hl
  omega

theorem idemGet_put_ne (s : IdemStore) (fp1 fp2 : Fingerprint) (rec : IdemRecord)
    (hne : fp1 ≠ fp2) : idemGet (idemPut s fp1 rec) fp2 = idemGet s fp2 := by
  induction s with
  | nil =>
    unfold idemGet
    rw [show idemPut ([] : IdemStore) fp1 rec = [(fp1, rec)] from rfl]
    rw [List.find?_cons_of_neg _ (by simp [hne])]
  | cons e es ih =>
    unfold idemGet at ih ⊢
    rw [show idemPut (e :: es) fp1 rec =
      (if e.1 = fp1 then (fp1, rec) :: es else e :: idemPut es fp1 rec) from rfl]
    by_cases hc : e.1 = fp1
    · rw [if_pos hc]
      rw [List.find?_cons_of_neg _ (by simp [hne]),
        List.find?_cons_of_neg _ (by simp [hc, hne])]
    · rw [if_neg hc]
      by_cases he2 : e.1 = fp2
      · rw [List.find?_cons_of_pos _ (by simp [he2]),
          List.find?_cons_of_pos _ (by simp [he2])]
      · rw [List.find?_cons_of_neg _ (by simp [he2]),
          List.find?_cons_of_neg _ (by simp [he2])]
        exact ih

theorem updateProfileRespPhase_replay (g : HSt) (subject : SubjectID)
    (idemKey bh : String) (pbody : UpdateProfileBody) (now : Time)
    (rec : IdemRecord) (m : Member)
    (hresp : idemGet g.idem ⟨idemKey, subject, "PATCH", "/members/me", bh⟩ = some rec)
    (hsc : rec.statusCode = 200) (hct : strHasJSONContentType rec.contentType = true)
    (hbody : rec.body = RecBody.memberBody m) :
    updateProfileRespPhase g subject idemKey bh pbody now = ((200, .memberB m), g) := by
  have he2 : updateProfileRespPhase g subject idemKey bh pbody now =
      (match idemGet g.idem ⟨idemKey, subject, "PATCH", "/members/me", bh⟩ with
       | some rec0 =>
         if rec0.statusCode = 200 ∧ strHasJSONContentType rec0.contentType = true then
           match rec0.body with
           | RecBody.memberBody m0 => ((200, RespBody.memberB m0), g)
           | _ => updateProfileExec g subject
               ⟨idemKey, subject, "PATCH", "/members/me", bh⟩ pbody now
         else updateProfileExec g subject
             ⟨idemKey, subject, "PATCH", "/members/me", bh⟩ pbody now
       | none => updateProfileExec g subject
           ⟨idemKey, subject, "PATCH", "/members/me", bh⟩ pbody now) := rfl
  rw [he2, hresp]
  show (if rec.statusCode = 200 ∧ strHasJSONContentType rec.contentType = true then
      (match rec.body with
       | RecBody.memberBody m0 => ((200, RespBody.memberB m0), g)
       | _ => updateProfileExec g subject
           ⟨idemKey, subject, "PATCH", "/members/me", bh⟩ pbody now)
    else updateProfileExec g subject
        ⟨idemKey, subject, "PATCH", "/members/me", bh⟩ pbody now) = _
  rw [if_pos ⟨hsc, hct⟩, hbody]

theorem createTripRespPhase_replay (g : HSt) (callerID : MemberID) (subject : SubjectID)
    (idemKey bh : String) (cbody : CreateTripBody) (newID : TripID) (now : Time)
    (rec : IdemRecord) (p : TripCreated)
    (hresp : idemGet g.idem ⟨idemKey, subject, "POST", "/trips", bh⟩ = some rec)
    (hsc : rec.statusCode = 201) (hct : strHasJSONContentType rec.contentType = true)
    (hbody : rec.body = RecBody.tripBody p) :
    createTripRespPhase g callerID subject idemKey bh cbody newID now =
      ((201, .tripB p), g) := by
  have he2 : createTripRespPhase g callerID subject idemKey bh cbody newID now =
      (match idemGet g.idem ⟨idemKey, subject, "POST", "/trips", bh⟩ with
       | some rec0 =>
         if rec0.statusCode = 201 ∧ strHasJSONContentType rec0.contentType = true then
           match rec0.body with
           | RecBody.tripBody p0 => ((201, RespBody.tripB p0), g)
           | _ => createTripExec g callerID
               ⟨idemKey, subject, "POST", "/trips", bh⟩ cbody newID now
         else createTripExec g callerID
             ⟨idemKey, subject, "POST", "/trips", bh⟩ cbody newID now
       | none => createTripExec g callerID
           ⟨idemKey, subject, "POST", "/trips", bh⟩ cbody newID now) := rfl
  rw [he2, hresp]
  show (if rec.statusCode = 201 ∧ strHasJSONContentType rec.contentType = true then
      (match rec.body with
       | RecBody.tripBody p0 => ((201, RespBody.tripB p0), g)
       | _ => createTripExec g callerID
           ⟨idemKey, subject, "POST", "/trips", bh⟩ cbody newID now)
    else createTripExec g callerID
        ⟨idemKey, subject, "POST", "/trips", bh⟩ cbody newID now) = _
  rw [if_pos ⟨hsc, hct⟩, hbody]

/-- C6: for both idempotent endpoints, a metadata-fingerprint record whose
stored hash differs from the request body hash yields 409
IDEMPOTENCY_KEY_REUSE with the whole state unchanged; otherwise a
response-fingerprint record (handler-written, hence with status ≥ 200) is
replayed with its recorded status and payload, leaving the application state
untouched. -/
theorem idempotency_protocol (h : HSt) (subject : SubjectID) (idemKey : String)
    (pbody : UpdateProfileBody) (cbody : CreateTripBody) (newID : TripID) (now : Time) :
    (∀ meta, idemGet h.idem ⟨idemKey, subject, "PATCH", "/members/me", ""⟩ = some meta →
      metaBodyMismatch meta.body (hashUpdateMyMemberProfileBody pbody) = true →
      updateMyMemberProfileHandler h subject idemKey pbody now =
        ((409, .errB "IDEMPOTENCY_KEY_REUSE"), h)) ∧
    (∀ rec, (idemGet h.idem ⟨idemKey, subject, "PATCH", "/members/me", ""⟩ = none ∨
        ∃ meta, idemGet h.idem ⟨idemKey, subject, "PATCH", "/members/me", ""⟩ = some meta ∧
          metaBodyMismatch meta.body (hashUpdateMyMemberProfileBody pbody) = false) →
      idemGet h.idem ⟨idemKey, subject, "PATCH", "/members/me",
        hashUpdateMyMemberProfileBody pbody⟩ = some rec →
      wfRespRecordPATCH rec →
      200 ≤ rec.statusCode ∧
      ∃ m, rec.body = RecBody.memberBody m ∧
        (updateMyMemberProfileHandler h subject idemKey pbody now).1 =
          (rec.statusCode, .memberB m) ∧
        (updateMyMemberProfileHandler h subject idemKey pbody now).2.st = h.st) ∧
    (∀ me meta, membersGetBySubject h.st.members subject = some me →
      idemGet h.idem ⟨idemKey, subject, "POST", "/trips", ""⟩ = some meta →
      metaBodyMismatch meta.body (hashCreateTripDraftBody cbody) = true →
      createTripDraftHandler h subject idemKey cbody newID now =
        ((409, .errB "IDEMPOTENCY_KEY_REUSE"), h)) ∧
    (∀ me rec, membersGetBySubject h.st.members subject = some me →
      (idemGet h.idem ⟨idemKey, subject, "POST", "/trips", ""⟩ = none ∨
        ∃ meta, idemGet h.idem ⟨idemKey, subject, "POST", "/trips", ""⟩ = some meta ∧
          metaBodyMismatch meta.body (hashCreateTripDraftBody cbody) = false) →
      idemGet h.idem ⟨idemKey, subject, "POST", "/trips",
        hashCreateTripDraftBody cbody⟩ = some rec →
      wfRespRecordPOST rec →
      200 ≤ rec.statusCode ∧
      ∃ p, rec.body = RecBody.tripBody p ∧
        (createTripDraftHandler h subject idemKey cbody newID now).1 =
          (rec.statusCode, .tripB p) ∧
        (createTripDraftHandler h subject idemKey cbody newID now).2.st = h.st) := by
  have he : updateMyMemberProfileHandler h subject idemKey pbody now =
      (match idemGet h.idem ⟨idemKey, subject, "PATCH", "/members/me", ""⟩ with
       | some meta0 =>
         if metaBodyMismatch meta0.body (hashUpdateMyMemberProfileBody pbody) = true then
           ((409, RespBody.errB "IDEMPOTENCY_KEY_REUSE"), h)
         else updateProfileRespPhase h subject idemKey
           (hashUpdateMyMemberProfileBody pbody) pbody now
       | none =>
         updateProfileRespPhase
           (markHSt h ⟨idemKey, subject, "PATCH", "/members/me", ""⟩
             (hashUpdateMyMemberProfileBody pbody) now)
           subject idemKey (hashUpdateMyMemberProfileBody pbody) pbody now) := rfl
  have hfpP : (⟨idemKey, subject, "PATCH", "/members/me", ""⟩ : Fingerprint) ≠
      ⟨idemKey, subject, "PATCH", "/members/me", hashUpdateMyMemberProfileBody pbody⟩ :=
    fun hc => hashUpdateProfile_ne_empty pbody (congrArg Fingerprint.bodyHash hc).symm
  have hfpQ : (⟨idemKey, subject, "POST", "/trips", ""⟩ : Fingerprint) ≠
      ⟨idemKey, subject, "POST", "/trips", hashCreateTripDraftBody cbody⟩ :=
    fun hc => hashCreateTrip_ne_empty cbody (congrArg Fingerprint.bodyHash hc).symm
  refine ⟨?_, ?_, ?_, ?_⟩
  · intro meta hget hmm1
    rw [he, hget]
    show (if metaBodyMismatch meta.body (hashUpdateMyMemberProfileBody pbody) = true then
        ((409, RespBody.errB "IDEMPOTENCY_KEY_REUSE"), h)
      else updateProfileRespPhase h subject idemKey
        (hashUpdateMyMemberProfileBody pbody) pbody now) = _
    rw [if_pos hmm1]
  · intro rec hmeta hresp hwf
    obtain ⟨hsc, hct, m, hbody⟩ := hwf
    have hres : ∃ g : HSt, g.st = h.st ∧
        updateMyMemberProfileHandler h subject idemKey pbody now =
          ((200, .memberB m), g) := by
      rcases hmeta with hnone | ⟨meta, hsome, hmatch⟩
      · refine ⟨markHSt h ⟨idemKey, subject, "PATCH", "/members/me", ""⟩
          (hashUpdateMyMemberProfileBody pbody) now, rfl, ?_⟩
        rw [he, hnone]
        show updateProfileRespPhase
            (markHSt h ⟨idemKey, subject, "PATCH", "/members/me", ""⟩
              (hashUpdateMyMemberProfileBody pbody) now)
            subject idemKey (hashUpdateMyMemberProfileBody pbody) pbody now = _
        exact updateProfileRespPhase_replay _ _ _ _ _ _ _ _
          (by
            show idemGet (idemPut h.idem ⟨idemKey, subject, "PATCH", "/members/me", ""⟩
              ⟨0, "text/plain", RecBody.marker (hashUpdateMyMemberProfileBody pbody), now⟩)
              ⟨idemKey, subject, "PATCH", "/members/me",
                hashUpdateMyMemberProfileBody pbody⟩ = some rec
            rw [idemGet_put_ne _ _ _ _ hfpP]
            exact hresp)
          hsc hct hbody
      · refine ⟨h, rfl, ?_⟩
        rw [he, hsome]
        show (if metaBodyMismatch meta.body (hashUpdateMyMemberProfileBody pbody) = true then
            ((409, RespBody.errB "IDEMPOTENCY_KEY_REUSE"), h)
          else updateProfileRespPhase h subject idemKey
            (hashUpdateMyMemberProfileBody pbody) pbody now) = _
        rw [if_neg (by rw [hmatch]; simp)]
        exact updateProfileRespPhase_replay _ _ _ _ _ _ _ _ hresp hsc hct hbody
    obtain ⟨g, hg, hr⟩ := hres
    refine ⟨by omega, m, hbody, ?_, ?_⟩
    · rw [hr, hsc]
    · rw [hr]
      exact hg
  · intro me meta hme hget hmm1
    have heP : createTripDraftHandler h subject idemKey cbody newID now =
        (match idemGet h.idem ⟨idemKey, subject, "POST", "/trips", ""⟩ with
         | some meta0 =>
           if metaBodyMismatch meta0.body (hashCreateTripDraftBody cbody) = true then
             ((409, RespBody.errB "IDEMPOTENCY_KEY_REUSE"), h)
           else createTripRespPhase h me.id subject idemKey
             (hashCreateTripDraftBody cbody) cbody newID now
         | none =>
           createTripRespPhase
             (markHSt h ⟨idemKey, subject, "POST", "/trips", ""⟩
               (hashCreateTripDraftBody cbody) now)
             me.id subject idemKey (hashCreateTripDraftBody cbody) cbody newID now) := by
      unfold createTripDraftHandler
      rw [hme]
      rfl
    rw [heP, hget]
    show (if metaBodyMismatch meta.body (hashCreateTripDraftBody cbody) = true then
        ((409, RespBody.errB "IDEMPOTENCY_KEY_REUSE"), h)
      else createTripRespPhase h me.id subject idemKey
        (hashCreateTripDraftBody cbody) cbody newID now) = _
    rw [if_pos hmm1]
  · intro me rec hme hmeta hresp hwf
    obtain ⟨hsc, hct, p, hbody⟩ := hwf
    have heP : createTripDraftHandler h subject idemKey cbody newID now =
        (match idemGet h.idem ⟨idemKey, subject, "POST", "/trips", ""⟩ with
         | some meta0 =>
           if metaBodyMismatch meta0.body (hashCreateTripDraftBody cbody) = true then
             ((409, RespBody.errB "IDEMPOTENCY_KEY_REUSE"), h)
           else createTripRespPhase h me.id subject idemKey
             (hashCreateTripDraftBody cbody) cbody newID now
         | none =>
           createTripRespPhase
             (markHSt h ⟨idemKey, subject, "POST", "/trips", ""⟩
               (hashCreateTripDraftBody cbody) now)
             me.id subject idemKey (hashCreateTripDraftBody cbody) cbody newID now) := by
      unfold createTripDraftHandler
      rw [hme]
      rfl
    have hres : ∃ g : HSt, g.st = h.st ∧
        createTripDraftHandler h subject idemKey cbody newID now =
          ((201, .tripB p), g) := by
      rcases hmeta with hnone | ⟨meta, hsome, hmatch⟩
      · refine ⟨markHSt h ⟨idemKey, subject, "POST", "/trips", ""⟩
          (hashCreateTripDraftBody cbody) now, rfl, ?_⟩
        rw [heP, hnone]
        show createTripRespPhase
            (markHSt h ⟨idemKey, subject, "POST", "/trips", ""⟩
              (hashCreateTripDraftBody cbody) now)
            me.id subject idemKey (hashCreateTripDraftBody cbody) cbody newID now = _
        exact createTripRespPhase_replay _ _ _ _ _ _ _ _ _ _
          (by
            show idemGet (idemPut h.idem ⟨idemKey, subject, "POST", "/trips", ""⟩
              ⟨0, "text/plain", RecBody.marker (hashCreateTripDraftBody cbody), now⟩)
              ⟨idemKey, subject, "POST", "/trips", hashCreateTripDraftBody cbody⟩ = some rec
            rw [idemGet_put_ne _ _ _ _ hfpQ]
            exact hresp)
          hsc hct hbody
      · refine ⟨h, rfl, ?_⟩
        rw [heP, hsome]
        show (if metaBodyMismatch meta.body (hashCreateTripDraftBody cbody) = true then
            ((409, RespBody.errB "IDEMPOTENCY_KEY_REUSE"), h)
          else createTripRespPhase h me.id subject idemKey
            (hashCreateTripDraftBody cbody) cbody newID now) = _
        rw [if_neg (by rw [hmatch]; simp)]
        exact createTripRespPhase_replay _ _ _ _ _ _ _ _ _ _ hresp hsc hct hbody
    obtain ⟨g, hg, hr⟩ := hres
    refine ⟨by omega, p, hbody, ?_, ?_⟩
    · rw [hr, hsc]
    · rw [hr]
      exact hg

theorem idempotency_protocol_witness :
    updateMyMemberProfileHandler wIdemP "sa" "k1" ⟨.unspec, none, .unspec, none⟩ 3 =
      ((409, .errB "IDEMPOTENCY_KEY_REUSE"), wIdemP) ∧
    (createTripDraftHandler wIdemQ "sa" "k2" ⟨"Snow Run"⟩ "T9" 3).1 =
      (201, .tripB ⟨"T1", .draft, .priv⟩) := by
  constructor
  · exact (idempotency_protocol wIdemP "sa" "k1" ⟨.unspec, none, .unspec, none⟩
      ⟨"Snow Run"⟩ "T9" 3).1 ⟨0, "text/plain", .marker "other", 1⟩ (by decide) (by decide)
  · obtain ⟨-, p, hp, hres, -⟩ :=
      (idempotency_protocol wIdemQ "sa" "k2" ⟨.unspec, none, .unspec, none⟩
        ⟨"Snow Run"⟩ "T9" 3).2.2.2 wAlice wPostRec (by decide) (Or.inl (by decide))
        (by decide) ⟨rfl, by decide, ⟨"T1", .draft, .priv⟩, rfl⟩
    cases hp
    exact hres

end Ebo
